import Mathlib

/-!
# Verification of the moji exporter's traversal / dedup / classification core

Shallow embedding of `src/moji_exporter.py`.  Python dict fields that may be
absent or `None` are modelled as `String` with `""` for absence: every use the
source makes of those fields (`x or y` chains, `if not x`, `str(x or "")`)
treats `None` and `""` identically.  The network is an explicit environment
(`Env`); every gateway call is recorded in an event trace carried by the run
state, and emitted export records are recorded as `emit` events in the same
trace (an emission is a `print` block in text mode or a `results_by_id`
insertion in `--json` mode).  The gateway envelope unwrapping
(`_unwrap_parse_result`) is abstracted: the environment directly supplies the
unwrapped payload `{code, result}` that the exporter inspects.
-/

namespace MojiExport

/-- Python `x or y` on strings (absent/`None` is `""`, and `""` is falsy). -/
def pyOr (a b : String) : String := if a = "" then b else a

/-- Characters Python `str.strip()` removes (ASCII whitespace). -/
def isPySpace (c : Char) : Bool :=
  c = ' ' || c = '\t' || c = '\n' || c = '\r' || c = '\x0b' || c = '\x0c'

def pyStripChars (l : List Char) : List Char :=
  ((l.dropWhile isPySpace).reverse.dropWhile isPySpace).reverse

/-- Python `str(x).strip()`. -/
def pyStrip (s : String) : String := String.mk (pyStripChars s.data)

/-- Python `needle in hay` (substring test) on char lists. -/
def listContainsSub (needle : List Char) : List Char → Bool
  | [] => needle.isEmpty
  | c :: rest => needle.isPrefixOf (c :: rest) || listContainsSub needle rest

def strContains (hay needle : String) : Bool := listContainsSub needle.data hay.data

/-- Python `str.lower()` (ASCII case only; the CJK keywords are caseless). -/
def strLower (s : String) : String := String.mk (s.data.map Char.toLower)

/-- Value of a nonempty all-digit char list; `none` otherwise. -/
def digitsVal (l : List Char) : Option Nat :=
  if l.isEmpty then none
  else
    l.foldl
      (fun acc c =>
        match acc with
        | none => none
        | some n => if c.isDigit then some (n * 10 + (c.toNat - 48)) else none)
      (some 0)

/-- Python `int(s)` on an already-stripped string (sign + digits). -/
def pyInt (s : String) : Option Int :=
  match s.data with
  | '+' :: rest => (digitsVal rest).map (fun n => (n : Int))
  | '-' :: rest => (digitsVal rest).map (fun n => -(n : Int))
  | l => (digitsVal l).map (fun n => (n : Int))

/-- Python `s.isdigit()` (nonempty, all digits). -/
def isDigitsStr (s : String) : Bool := !s.data.isEmpty && s.data.all Char.isDigit

def natValD (s : String) : Nat := (digitsVal s.data).getD 0

/-- Python `s.split(",")`. -/
def splitCommaAux : List Char → List Char → List (List Char)
  | [], cur => [cur.reverse]
  | c :: rest, cur =>
    if c = ',' then cur.reverse :: splitCommaAux rest []
    else splitCommaAux rest (c :: cur)

def splitComma (s : String) : List String := (splitCommaAux s.data []).map String.mk

/-- Python `s.replace("..", "-")` (left-to-right, non-overlapping). -/
def replaceDotsDash : List Char → List Char
  | [] => []
  | '.' :: '.' :: rest => '-' :: replaceDotsDash rest
  | c :: rest => c :: replaceDotsDash rest

/-- Python `s.partition("-")`: split at the first `'-'`, `none` when absent. -/
def partitionDash : List Char → Option (List Char × List Char)
  | [] => none
  | c :: rest =>
    if c = '-' then some ([], rest)
    else (partitionDash rest).map (fun p => (c :: p.1, p.2))

/-- Python `range(a, b + step, step)` with `step = 1 if a <= b else -1`. -/
def rangeIncl (a b : Nat) : List Int :=
  if a ≤ b then (List.range (b - a + 1)).map (fun i => ((a + i : Nat) : Int))
  else (List.range (a - b + 1)).map (fun i => ((a : Int) - (i : Int)))

/-! ## Data model -/

/-- The `target` dict of one raw item (fields the exporter reads). -/
structure Target where
  objectId : String := ""
  id : String := ""
  wordId : String := ""
  title : String := ""
  notationTitle : String := ""
  trans : String := ""
  excerpt : String := ""
  spell : String := ""
  pron : String := ""
  accent : String := ""
deriving DecidableEq

/-- One row of a folder page (`targetType` may be absent/non-int; `target`
is `none` when not a JSON object). -/
structure RawItem where
  targetType : Option Int := none
  target : Option Target := none
deriving DecidableEq

/-- Item Identity: the dedup key `f"{tt}:{item_id}"`, kept as a pair (the
Python string is in bijection with the pair since `str(tt)` has no colon). -/
abbrev ItemKey := Option Int × String

/-- The nested `word` dict of a word-detail response. -/
structure WordFields where
  spell : String := ""
  pron : String := ""
  accent : String := ""
  excerpt : String := ""
deriving DecidableEq

/-- A word cache entry: a fetched response (whose `word` sub-dict may be
absent) or the `{"_error": ...}` sentinel stored when the fetch raised. -/
inductive WordResp where
  | ok (word : Option WordFields)
  | err (msg : String)
deriving DecidableEq

/-- Events of a run, in order: the gateway calls the exporter issues plus the
`emit` events marking each produced Export Record. -/
inductive GEvent where
  | foldersFetch (withPfid : Bool)
  | targetsFetch (itemId : String)
  | pageFetch (folderId : String) (sortType : Int) (pageIndex : Int)
  | wordFetch (wordId : String)
  | emit (key : ItemKey)
deriving DecidableEq

/-- Export record for a sentence-like item (targetType 103/120). -/
structure SentRecord where
  targetType : Int
  itemId : String
  wordId : String
  wordSpell : String
  wordPron : String
  jp : String
  trans : String
  folderId : String
  folderTitle : String
  sortType : Int
deriving DecidableEq

/-- Export record for a word item (targetType 102). -/
structure WordRecord where
  targetType : Int
  itemId : String
  wordId : String
  spell : String
  pron : String
  accent : String
  excerpt : String
  folderId : String
  folderTitle : String
  sortType : Int
deriving DecidableEq

inductive Record where
  | sent (r : SentRecord)
  | word (r : WordRecord)
deriving DecidableEq

/-- The run's mutable state: word cache, global seen set, printed counter,
stop flag, the `--json` results map, and the event trace. -/
structure ExpState where
  wordCache : List (String × WordResp) := []
  seenGlobal : List ItemKey := []
  printed : Nat := 0
  stopEverything : Bool := false
  results : List (ItemKey × Record) := []
  trace : List GEvent := []
deriving DecidableEq

/-- Payload of `folder-fetchContentWithRelatives` after envelope unwrapping. -/
structure PagePayload where
  code : Int := 200
  totalPage : Option Int := none
  items : List RawItem := []
deriving DecidableEq

/-- One folder dict from `fetchMyFolders` (fields the exporter reads). -/
structure Folder where
  targetId : String := ""
  objectId : String := ""
  id : String := ""
  title : String := ""
  name : String := ""
deriving DecidableEq

/-- Payload of `fetchMyFolders` after unwrapping: `result` is `none` when it
is not a list; list entries are `none` when not dicts. -/
structure FoldersPayload where
  code : Int := 200
  result : Option (List (Option Folder)) := none
deriving DecidableEq

/-- The network, as a deterministic oracle.  `fetchWordDetail` returning
`.err` models the request raising; `fetchItemTargets` returns whether the
targets request succeeded. -/
structure Env where
  fetchWordDetail : String → WordResp
  fetchPage : String → Int → Int → PagePayload
  fetchMyFolders : Bool → FoldersPayload
  fetchItemTargets : String → Bool

inductive Mode where
  | sentences
  | words
  | both
deriving DecidableEq

/-- The parsed command line (string options use `""` for absent). -/
structure Args where
  sessionToken : String := ""
  pfid : String := ""
  folderId : String := ""
  targetsForItem : String := ""
  page : Int := 1
  count : Int := 20
  sortType : Int := 0
  sortTypes : String := ""
  limit : Int := 10
  mode : Mode := Mode.sentences
  targetTypes : String := ""
  output : String := ""
  jsonOutput : Bool := false
  fetchAll : Bool := false
  allFolders : Bool := false
  maxPages : Int := 200
  stopAfterNoNew : Int := 3
  expected : Int := 0
deriving DecidableEq

/-! ## Word Resolution Cache -/

def lookupCache (w : String) : List (String × WordResp) → Option WordResp
  | [] => none
  | (k, v) :: rest => if k = w then some v else lookupCache w rest

/-- `if word_id_s not in word_cache: word_cache[word_id_s] = fetch-or-error`
(lines 772-780 and 837-845). -/
def resolveWord (env : Env) (w : String) (st : ExpState) : ExpState :=
  match lookupCache w st.wordCache with
  | some _ => st
  | none =>
    { st with
      wordCache := (w, env.fetchWordDetail w) :: st.wordCache
      trace := st.trace ++ [GEvent.wordFetch w] }

/-- `wresp = word_cache.get(id) or {}; w = wresp.get("word") if dict`. -/
def cachedWord (st : ExpState) (w : String) : Option WordFields :=
  match lookupCache w st.wordCache with
  | some (WordResp.ok wf) => wf
  | _ => none

/-! ## Item Classifier & Record Builder -/

/-- `item_id = target.get("objectId") or target.get("id")`, with the
`f"{wordId}::{title}"` fallback when falsy. -/
def itemIdOf (t : Target) : String :=
  let x := pyOr t.objectId t.id
  if x = "" then t.wordId ++ "::" ++ t.title else x

def keyOf (it : RawItem) (t : Target) : ItemKey := (it.targetType, itemIdOf t)

/-- `tt not in allowed_types` (a non-int `targetType` is never a member). -/
def typeAllowed (allowed : List Int) : Option Int → Bool
  | some n => allowed.contains n
  | none => false

/-- The sentence-like branch (lines 765-807): resolve the parent word via
`target.wordId`, build `jp`/`trans`, and produce a record iff `jp` is
non-empty after strip. -/
def classifySent (env : Env) (folderId folderTitle : String) (sortType : Int)
    (tt : Int) (itemId : String) (t : Target) (st : ExpState) :
    ExpState × Option Record :=
  let wid := t.wordId
  let st1 := if wid ≠ "" then resolveWord env wid st else st
  let ws :=
    if wid ≠ "" then
      match cachedWord st1 wid with
      | some w => pyStrip w.spell
      | none => ""
    else ""
  let wp :=
    if wid ≠ "" then
      match cachedWord st1 wid with
      | some w => pyStrip w.pron
      | none => ""
    else ""
  let jp := pyStrip (pyOr t.title t.notationTitle)
  let tr := pyStrip (pyOr t.trans t.excerpt)
  (st1,
    if jp ≠ "" then
      some (Record.sent
        { targetType := tt, itemId := itemId, wordId := wid, wordSpell := ws,
          wordPron := wp, jp := jp, trans := tr, folderId := folderId,
          folderTitle := folderTitle, sortType := sortType })
    else none)

/-- Intermediate result of the word branch's field completion. -/
structure WFilled where
  st : ExpState
  spell : String
  pron : String
  accent : String
  excerpt : String

/-- Lines 830-852: inline fields, then `detailInfo` fallback that fills only
the empty ones (`spell = spell or resolved`, etc.), guarded by
`word_id_s and (not spell or not pron)`. -/
def wordFieldsAfter (env : Env) (t : Target) (st : ExpState) : WFilled :=
  let wid := pyOr t.objectId t.id
  let spell0 := pyStrip (pyOr t.spell t.title)
  let pron0 := pyStrip t.pron
  let accent0 := pyStrip t.accent
  let excerpt0 := pyStrip t.excerpt
  if wid ≠ "" ∧ (spell0 = "" ∨ pron0 = "") then
    let st1 := resolveWord env wid st
    match cachedWord st1 wid with
    | some w =>
      { st := st1, spell := pyOr spell0 (pyStrip w.spell),
        pron := pyOr pron0 (pyStrip w.pron),
        accent := pyOr accent0 (pyStrip w.accent),
        excerpt := pyOr excerpt0 (pyStrip w.excerpt) }
    | none =>
      { st := st1, spell := spell0, pron := pron0, accent := accent0,
        excerpt := excerpt0 }
  else
    { st := st, spell := spell0, pron := pron0, accent := accent0,
      excerpt := excerpt0 }

/-- The word branch (lines 824-883): produce a record iff `spell` or
`excerpt` is non-empty after resolution. -/
def classifyWord (env : Env) (folderId folderTitle : String) (sortType : Int)
    (itemId : String) (t : Target) (st : ExpState) : ExpState × Option Record :=
  let wid := pyOr t.objectId t.id
  let f := wordFieldsAfter env t st
  (f.st,
    if f.spell ≠ "" ∨ f.excerpt ≠ "" then
      some (Record.word
        { targetType := 102, itemId := itemId, wordId := wid, spell := f.spell,
          pron := f.pron, accent := f.accent, excerpt := f.excerpt,
          folderId := folderId, folderTitle := folderTitle,
          sortType := sortType })
    else none)

/-! ## Result Sink and per-item traversal step -/

/-- Python dict assignment `results_by_id[key] = r` on an assoc list. -/
def insertAssoc (k : ItemKey) (v : Record) :
    List (ItemKey × Record) → List (ItemKey × Record)
  | [] => [(k, v)]
  | (k', v') :: rest =>
    if k' = k then (k, v) :: rest else (k', v') :: insertAssoc k v rest

/-- Accept a record: store it under its key (`--json`) or print it, bump
`printed_total`, and evaluate the expected-count early stop
(lines 794-822 / 855-883).  The returned flag is the resulting `break` out
of the item loop, taken exactly when the stop flag is raised. -/
def emitRecord (args : Args) (key : ItemKey) (r : Record) (st : ExpState) :
    ExpState × Bool :=
  let stopHit : Bool :=
    args.fetchAll && decide (0 < args.expected)
      && decide (args.expected ≤ ((st.printed + 1 : Nat) : Int))
  ({ st with
      results := if args.jsonOutput = true then insertAssoc key r st.results else st.results
      printed := st.printed + 1
      trace := st.trace ++ [GEvent.emit key]
      stopEverything := stopHit || st.stopEverything },
    stopHit)

/-- Per-(folder, sortType) accumulator: per-folder seen set, run state, and
the page's `new_any_in_page` / `new_selected_in_page` counters. -/
structure ProcAcc where
  fs : List ItemKey
  st : ExpState
  newAny : Nat
  newSel : Nat
deriving DecidableEq

/-- Line 885: `if not args.fetch_all and printed_total >= args.limit: break`. -/
def afterItem (args : Args) (acc : ProcAcc) : ProcAcc × Bool :=
  if args.fetchAll = false ∧ args.limit ≤ (acc.st.printed : Int) then (acc, true)
  else (acc, false)

/-- Glue between a classifier result and the Result Sink. -/
def classifyEmit (args : Args) (key : ItemKey) (res : ExpState × Option Record)
    (acc : ProcAcc) : ProcAcc × Bool :=
  match res.2 with
  | some r =>
    let out := emitRecord args key r res.1
    if out.2 then ({ acc with st := out.1 }, true)
    else afterItem args { acc with st := out.1 }
  | none => afterItem args { acc with st := res.1 }

/-- Lines 748-752: in `--all` mode, record the key in the per-folder seen
set and count it as `new_any_in_page`. -/
def markFolderSeen (args : Args) (key : ItemKey) (acc : ProcAcc) : ProcAcc :=
  if args.fetchAll = true then
    { acc with fs := key :: acc.fs, newAny := acc.newAny + 1 }
  else acc

/-- Lines 760-763: mark the key globally seen and, in `--all` mode, count it
as `new_selected_in_page`. -/
def markGlobalSeen (args : Args) (key : ItemKey) (acc : ProcAcc) : ProcAcc :=
  let acc2 := { acc with st := { acc.st with seenGlobal := key :: acc.st.seenGlobal } }
  if args.fetchAll = true then { acc2 with newSel := acc2.newSel + 1 } else acc2

/-- Lines 765-885: dispatch on the type tag and emit the classified record. -/
def processFreshItem (args : Args) (env : Env)
    (folderId folderTitle : String) (sortType : Int) (it : RawItem)
    (t : Target) (key : ItemKey) (acc3 : ProcAcc) : ProcAcc × Bool :=
  match it.targetType with
  | some tt =>
    if tt = 103 ∨ tt = 120 then
      classifyEmit args key
        (classifySent env folderId folderTitle sortType tt (itemIdOf t) t acc3.st) acc3
    else if tt = 102 then
      classifyEmit args key
        (classifyWord env folderId folderTitle sortType (itemIdOf t) t acc3.st) acc3
    else afterItem args acc3
  | none => afterItem args acc3

/-- Lines 754-763: the type filter and the global dedup check. -/
def processNewInFolder (args : Args) (allowed : List Int) (env : Env)
    (folderId folderTitle : String) (sortType : Int) (it : RawItem)
    (t : Target) (key : ItemKey) (acc1 : ProcAcc) : ProcAcc × Bool :=
  if typeAllowed allowed it.targetType = false then (acc1, false)
  else if acc1.st.seenGlobal.contains key = true then (acc1, false)
  else
    processFreshItem args env folderId folderTitle sortType it t key
      (markGlobalSeen args key acc1)

/-- Lines 739-752: identity computation and the per-folder overlap skip. -/
def processTargetItem (args : Args) (allowed : List Int) (env : Env)
    (folderId folderTitle : String) (sortType : Int) (it : RawItem)
    (t : Target) (acc : ProcAcc) : ProcAcc × Bool :=
  let key := keyOf it t
  if args.fetchAll = true ∧ acc.fs.contains key = true then (acc, false)
  else
    processNewInFolder args allowed env folderId folderTitle sortType it t key
      (markFolderSeen args key acc)

/-- One iteration of the item loop (lines 731-885).  Returns the updated
accumulator and whether the loop `break`s after this item. -/
def processOneItem (args : Args) (allowed : List Int) (env : Env)
    (folderId folderTitle : String) (sortType : Int) (it : RawItem)
    (acc : ProcAcc) : ProcAcc × Bool :=
  match it.target with
  | none => (acc, false)
  | some t => processTargetItem args allowed env folderId folderTitle sortType it t acc

/-- The whole item loop of one page. Second component: did it `break` early. -/
def processItems (args : Args) (allowed : List Int) (env : Env)
    (folderId folderTitle : String) (sortType : Int) :
    List RawItem → ProcAcc → ProcAcc × Bool
  | [], acc => (acc, false)
  | it :: rest, acc =>
    match processOneItem args allowed env folderId folderTitle sortType it acc with
    | (acc1, true) => (acc1, true)
    | (acc1, false) => processItems args allowed env folderId folderTitle sortType rest acc1

/-! ## Traversal Controller: the page loop of `_export_one_folder` -/

/-- Lines 909-912: the no-new-streak update after a fully processed page. -/
def updateStreak (newAny : Nat) (streak : Nat) : Nat :=
  if newAny = 0 then streak + 1 else 0

/-- The `while True` page loop of `_export_one_folder` (lines 684-933),
fuel-indexed (the Python loop is unbounded when `--max-pages <= 0`).
Returns the final state and whether the run aborted (`RuntimeError` on a
non-200 page envelope, line 707). -/
def pageLoop (args : Args) (allowed : List Int) (env : Env)
    (folderId folderTitle : String) (sortType : Int) :
    Nat → Int → Option Int → Nat → List ItemKey → ExpState → ExpState × Bool
  | 0, _, _, _, _, st => (st, false)
  | Nat.succ fuel, pageIndex, totalPages, streak, fs, st =>
    if st.stopEverything = true then (st, false)
    else
      let st1 := { st with trace := st.trace ++ [GEvent.pageFetch folderId sortType pageIndex] }
      let resp := env.fetchPage folderId sortType pageIndex
      if resp.code ≠ 200 then (st1, true)
      else
        let totalPages1 :=
          match totalPages with
          | some tp => some tp
          | none =>
            match resp.totalPage with
            | some tp => if 0 < tp then some tp else none
            | none => none
        if resp.items.isEmpty then (st1, false)
        else
          let out := processItems args allowed env folderId folderTitle sortType resp.items
            { fs := fs, st := st1, newAny := 0, newSel := 0 }
          let acc := out.1
          if acc.st.stopEverything = true then (acc.st, false)
          else if args.fetchAll = false then (acc.st, false)
          else
            let streak1 := updateStreak acc.newAny streak
            if max 1 args.stopAfterNoNew ≤ (streak1 : Int) then (acc.st, false)
            else if (match totalPages1 with | some tp => decide (tp ≤ pageIndex) | none => false) = true then
              (acc.st, false)
            else if 0 < args.maxPages ∧ args.maxPages ≤ pageIndex - args.page + 1 then (acc.st, false)
            else
              pageLoop args allowed env folderId folderTitle sortType fuel
                (pageIndex + 1) totalPages1 streak1 acc.fs acc.st

/-- `_export_one_folder(folder_id, folder_title, sort_type)` (line 673). -/
def exportOneFolder (args : Args) (allowed : List Int) (env : Env)
    (folderId folderTitle : String) (sortType : Int) (fuel : Nat)
    (st : ExpState) : ExpState × Bool :=
  pageLoop args allowed env folderId folderTitle sortType fuel args.page none 0 [] st

/-- The sort-type inner loop (lines 946-951). -/
def runSorts (args : Args) (allowed : List Int) (env : Env)
    (folderId folderTitle : String) (fuel : Nat) :
    List Int → ExpState → ExpState × Bool
  | [], st => (st, false)
  | s :: rest, st =>
    match exportOneFolder args allowed env folderId folderTitle s fuel st with
    | (st1, true) => (st1, true)
    | (st1, false) =>
      if st1.stopEverything = true then (st1, false)
      else runSorts args allowed env folderId folderTitle fuel rest st1

/-- The folder outer loop (lines 943-956). -/
def runFolders (args : Args) (allowed : List Int) (env : Env) (fuel : Nat)
    (sorts : List Int) : List (String × String) → ExpState → ExpState × Bool
  | [], st => (st, false)
  | (fid, ftitle) :: rest, st =>
    if fid = "" then runFolders args allowed env fuel sorts rest st
    else
      match runSorts args allowed env fid ftitle fuel sorts st with
      | (st1, true) => (st1, true)
      | (st1, false) =>
        if st1.stopEverything = true then (st1, false)
        else if args.fetchAll = false then (st1, false)
        else runFolders args allowed env fuel sorts rest st1

/-! ## Folder discovery, selection, and configuration parsing -/

inductive DiscResult where
  | fail
  | ok (folders : List (Option Folder))
deriving DecidableEq

/-- Folder discovery with the one-shot no-pfid fallback (lines 459-498),
together with the gateway calls it issues. -/
def discoverFolders (args : Args) (env : Env) : DiscResult × List GEvent :=
  let withPfid := args.pfid ≠ ""
  let tr0 := [GEvent.foldersFetch withPfid]
  let p1 := env.fetchMyFolders withPfid
  if p1.code ≠ 200 then (DiscResult.fail, tr0)
  else
    match p1.result with
    | none => (DiscResult.fail, tr0)
    | some folders =>
      if withPfid ∧ folders.isEmpty then
        let p2 := env.fetchMyFolders false
        let tr1 := tr0 ++ [GEvent.foldersFetch false]
        if p2.code = 200 then
          match p2.result with
          | some fs2 => (DiscResult.ok fs2, tr1)
          | none => (DiscResult.ok folders, tr1)
        else (DiscResult.ok folders, tr1)
      else (DiscResult.ok folders, tr0)

def folderIdOf (f : Folder) : String :=
  pyStrip (pyOr (pyOr f.targetId f.objectId) f.id)

def folderTitleOf (f : Folder) : String := pyStrip (pyOr f.title f.name)

def dictFolders (folders : List (Option Folder)) : List Folder :=
  folders.filterMap id

/-- `_pick_folder` keyword heuristic (lines 266-284). -/
def pickKeywords : List String := ["例文", "例句", "例", "sentence", "sentences"]

def pickFolder (folders : List Folder) : Option Folder :=
  match folders with
  | [] => none
  | f0 :: _ =>
    match pickKeywords.findSome?
      (fun kw => folders.find? (fun f => strContains (strLower f.title) (strLower kw))) with
    | some f => some f
    | none => some f0

/-- Lines 505-555: build `export_folders`; `none` models `return 1`. -/
def selectExportFolders (args : Args) (folders : List (Option Folder)) :
    Option (List (String × String)) :=
  if args.folderId ≠ "" then
    match (dictFolders folders).find? (fun f => folderIdOf f = args.folderId) with
    | none => none
    | some f => some [(folderIdOf f, pyOr (folderTitleOf f) "(selected)")]
  else if args.allFolders = true then
    let efs := (dictFolders folders).filterMap (fun f =>
      let fid := folderIdOf f
      if fid = "" then none else some (fid, folderTitleOf f))
    let efs1 :=
      if args.pfid ≠ "" then
        let pfidS := pyStrip args.pfid
        if pfidS ≠ "" ∧ efs.all (fun x => x.1 ≠ pfidS) then
          (pfidS, "(root/pfid)") :: efs
        else efs
      else efs
    if efs1.isEmpty then none else some efs1
  else
    match pickFolder (dictFolders folders) with
    | none =>
      if args.pfid ≠ "" then some [(args.pfid, "(root)")] else none
    | some f => some [(folderIdOf f, folderTitleOf f)]

/-- Set-insert preserving first-insertion order (Python `set.add`). -/
def addSet (x : Int) (l : List Int) : List Int :=
  if l.contains x then l else l ++ [x]

def parseTargetTypesAux : List String → List Int → Except String (List Int)
  | [], acc => Except.ok acc
  | p :: rest, acc =>
    let p1 := pyStrip p
    if p1 = "" then parseTargetTypesAux rest acc
    else
      match pyInt p1 with
      | some n => parseTargetTypesAux rest (addSet n acc)
      | none => Except.error ("Invalid --target-types entry: " ++ p1)

/-- `_parse_target_types` (lines 562-574); `.error` models `SystemExit`. -/
def parseTargetTypes (s : String) : Except String (Option (List Int)) :=
  if s = "" then Except.ok none
  else
    match parseTargetTypesAux (splitComma s) [] with
    | Except.error e => Except.error e
    | Except.ok l => Except.ok (if l.isEmpty then none else some l)

def parseSortTypesAux : List String → Except String (List Int)
  | [] => Except.ok []
  | p :: rest =>
    let p1 := pyStrip p
    if p1 = "" then parseSortTypesAux rest
    else
      let tryRange : Option (List Int) :=
        if strContains p1 ".." || strContains p1 "-" then
          match partitionDash (replaceDotsDash p1.data) with
          | some (aCs, bCs) =>
            let aS := pyStrip (String.mk aCs)
            let bS := pyStrip (String.mk bCs)
            if isDigitsStr aS = true ∧ isDigitsStr bS = true then
              some (rangeIncl (natValD aS) (natValD bS))
            else none
          | none => none
        else none
      match tryRange with
      | some xs => (parseSortTypesAux rest).map (fun r => xs ++ r)
      | none =>
        match pyInt p1 with
        | some n => (parseSortTypesAux rest).map (fun r => n :: r)
        | none => Except.error ("Invalid --sort-types entry: " ++ p1)

def dedupKeep : List Int → List Int → List Int
  | [], _ => []
  | x :: rest, seen =>
    if seen.contains x then dedupKeep rest seen
    else x :: dedupKeep rest (x :: seen)

/-- `_parse_sort_types` (lines 631-665). -/
def parseSortTypes (s : String) : Except String (List Int) :=
  if s = "" then Except.ok []
  else (parseSortTypesAux (splitComma s)).map (fun l => dedupKeep l [])

def modeTypes : Mode → List Int
  | Mode.sentences => [120, 103]
  | Mode.words => [102]
  | Mode.both => [102, 103, 120]

/-! ## `main` -/

inductive RunOutcome where
  | exit (code : Int)
  | validationError (msg : String)
  | runtimeError
deriving DecidableEq

/-- `main(argv)` after argument parsing (lines 400-964): early exits, the
`--targets-for-item` path, folder discovery + selection, configuration list
parsing (which, in the source, happens only after discovery), and the
folder/sort/page traversal. -/
def mainRun (args : Args) (env : Env) (fuel : Nat) : RunOutcome × ExpState :=
  if args.sessionToken = "" then (RunOutcome.exit 2, {})
  else if args.targetsForItem ≠ "" then
    let st : ExpState := { trace := [GEvent.targetsFetch args.targetsForItem] }
    if env.fetchItemTargets args.targetsForItem then (RunOutcome.exit 0, st)
    else (RunOutcome.exit 1, st)
  else if args.jsonOutput = true ∧ args.output = "" then (RunOutcome.exit 2, {})
  else
    match discoverFolders args env with
    | (DiscResult.fail, tr) => (RunOutcome.exit 1, { trace := tr })
    | (DiscResult.ok folders, tr) =>
      match selectExportFolders args folders with
      | none => (RunOutcome.exit 1, { trace := tr })
      | some exportFolders =>
        match parseTargetTypes args.targetTypes with
        | Except.error m => (RunOutcome.validationError m, { trace := tr })
        | Except.ok explicitTypes =>
          let allowed :=
            match explicitTypes with
            | some l => l
            | none => modeTypes args.mode
          match parseSortTypes args.sortTypes with
          | Except.error m => (RunOutcome.validationError m, { trace := tr })
          | Except.ok sortList =>
            let active :=
              if args.fetchAll = true ∧ ¬ sortList.isEmpty then sortList
              else [args.sortType]
            match runFolders args allowed env fuel active exportFolders { trace := tr } with
            | (st1, true) => (RunOutcome.runtimeError, st1)
            | (st1, false) => (RunOutcome.exit 0, st1)

/-! ## Trace observations -/

/-- Keys of the Export Records produced, in order. -/
def emittedKeys (tr : List GEvent) : List ItemKey :=
  tr.filterMap (fun e => match e with | GEvent.emit k => some k | _ => none)

/-- Word ids of the word-detail gateway calls issued, in order. -/
def wordFetchIds (tr : List GEvent) : List String :=
  tr.filterMap (fun e => match e with | GEvent.wordFetch w => some w | _ => none)

/-- The `withPfid` flags of the `fetchMyFolders` calls issued, in order. -/
def foldersCalls (tr : List GEvent) : List Bool :=
  tr.filterMap (fun e => match e with | GEvent.foldersFetch b => some b | _ => none)

/-- Every event except `emit` is a gateway call. -/
def isCallEvent : GEvent → Bool
  | GEvent.emit _ => false
  | _ => true

def emitCount (tr : List GEvent) : Nat := (emittedKeys tr).length

/-- `chkCalls n c tr` checks that every gateway call in `tr` happens while
fewer than `n` records have been emitted (`c` counts emits before `tr`). -/
def chkCalls (n : Nat) : Nat → List GEvent → Bool
  | _, [] => true
  | c, GEvent.emit _ :: rest => chkCalls n (c + 1) rest
  | c, GEvent.foldersFetch _ :: rest => decide (c < n) && chkCalls n c rest
  | c, GEvent.targetsFetch _ :: rest => decide (c < n) && chkCalls n c rest
  | c, GEvent.pageFetch _ _ _ :: rest => decide (c < n) && chkCalls n c rest
  | c, GEvent.wordFetch _ :: rest => decide (c < n) && chkCalls n c rest

lemma emittedKeys_append (a b : List GEvent) :
    emittedKeys (a ++ b) = emittedKeys a ++ emittedKeys b := by
  simp [emittedKeys, List.filterMap_append]

lemma wordFetchIds_append (a b : List GEvent) :
    wordFetchIds (a ++ b) = wordFetchIds a ++ wordFetchIds b := by
  simp [wordFetchIds, List.filterMap_append]

lemma foldersCalls_append (a b : List GEvent) :
    foldersCalls (a ++ b) = foldersCalls a ++ foldersCalls b := by
  simp [foldersCalls, List.filterMap_append]

lemma emittedKeys_singleton_emit (k : ItemKey) :
    emittedKeys [GEvent.emit k] = [k] := rfl

lemma chkCalls_append_emit (n c : Nat) (tr : List GEvent) (k : ItemKey) :
    chkCalls n c (tr ++ [GEvent.emit k]) = chkCalls n c tr := by
  induction tr generalizing c with
  | nil => simp [chkCalls]
  | cons e rest ih =>
    cases e <;> simp [chkCalls, ih]

lemma emitCount_cons_emit (k : ItemKey) (rest : List GEvent) :
    emitCount (GEvent.emit k :: rest) = emitCount rest + 1 := by
  simp [emitCount, emittedKeys]

lemma chkCalls_append_call (n c : Nat) (tr : List GEvent) (e : GEvent)
    (he : isCallEvent e = true) :
    chkCalls n c (tr ++ [e]) =
      (chkCalls n c tr && decide (c + emitCount tr < n)) := by
  induction tr generalizing c with
  | nil =>
    cases e <;> simp [chkCalls, emitCount, emittedKeys, isCallEvent] at he ⊢
  | cons e' rest ih =>
    cases e' with
    | emit k =>
      rw [List.cons_append]
      show chkCalls n (c + 1) (rest ++ [e]) = _
      rw [ih, emitCount_cons_emit]
      show _ = (chkCalls n (c + 1) rest && _)
      congr 1
      exact decide_eq_decide.mpr (by omega)
    | foldersFetch b =>
      rw [List.cons_append]
      show (decide (c < n) && chkCalls n c (rest ++ [e])) = _
      rw [ih]
      show _ = ((decide (c < n) && chkCalls n c rest) && decide (c + emitCount rest < n))
      rw [Bool.and_assoc]
    | targetsFetch i =>
      rw [List.cons_append]
      show (decide (c < n) && chkCalls n c (rest ++ [e])) = _
      rw [ih]
      show _ = ((decide (c < n) && chkCalls n c rest) && decide (c + emitCount rest < n))
      rw [Bool.and_assoc]
    | pageFetch a b c' =>
      rw [List.cons_append]
      show (decide (c < n) && chkCalls n c (rest ++ [e])) = _
      rw [ih]
      show _ = ((decide (c < n) && chkCalls n c rest) && decide (c + emitCount rest < n))
      rw [Bool.and_assoc]
    | wordFetch w =>
      rw [List.cons_append]
      show (decide (c < n) && chkCalls n c (rest ++ [e])) = _
      rw [ih]
      show _ = ((decide (c < n) && chkCalls n c rest) && decide (c + emitCount rest < n))
      rw [Bool.and_assoc]

lemma chkCalls_no_emit (n c : Nat) (tr : List GEvent)
    (he : emittedKeys tr = []) (hc : c < n) : chkCalls n c tr = true := by
  induction tr generalizing c with
  | nil => rfl
  | cons e rest ih =>
    cases e with
    | emit k => exact absurd he (List.cons_ne_nil k (emittedKeys rest))
    | foldersFetch b =>
      show (decide (c < n) && chkCalls n c rest) = true
      simp [hc, ih c he hc]
    | targetsFetch i =>
      show (decide (c < n) && chkCalls n c rest) = true
      simp [hc, ih c he hc]
    | pageFetch a b c' =>
      show (decide (c < n) && chkCalls n c rest) = true
      simp [hc, ih c he hc]
    | wordFetch w =>
      show (decide (c < n) && chkCalls n c rest) = true
      simp [hc, ih c he hc]

/-! ## The master run invariant -/

/-- Invariant carried through a run.  The `stop_sync` / `calls_ok` fields are
the expected-count early-stop discipline and are vacuous unless
`--all` with a positive `--expected` is configured. -/
structure Inv (args : Args) (st : ExpState) : Prop where
  emit_nodup : (emittedKeys st.trace).Nodup
  emit_seen : ∀ k ∈ emittedKeys st.trace, st.seenGlobal.contains k = true
  wf_nodup : (wordFetchIds st.trace).Nodup
  wf_cached : ∀ w ∈ wordFetchIds st.trace, (lookupCache w st.wordCache).isSome = true
  printed_emits : st.printed = emitCount st.trace
  results_nodup : (st.results.map Prod.fst).Nodup
  stop_sync : args.fetchAll = true → 0 < args.expected →
    st.stopEverything = decide (args.expected ≤ (st.printed : Int))
  calls_ok : args.fetchAll = true → 0 < args.expected →
    chkCalls args.expected.toNat 0 st.trace = true

/-- Two-state preservation relation used to chain the traversal steps:
the invariant is preserved and no `fetchMyFolders` call is added. -/
def Pres (args : Args) (st st' : ExpState) : Prop :=
  (Inv args st → Inv args st') ∧ foldersCalls st'.trace = foldersCalls st.trace

lemma Pres.refl (args : Args) (st : ExpState) : Pres args st st :=
  ⟨fun h => h, rfl⟩

lemma Pres.trans {args : Args} {a b c : ExpState}
    (h1 : Pres args a b) (h2 : Pres args b c) : Pres args a c :=
  ⟨fun h => h2.1 (h1.1 h), by rw [h2.2, h1.2]⟩

lemma lookupCache_cons_isSome (w k : String) (v : WordResp)
    (l : List (String × WordResp)) (h : (lookupCache w l).isSome = true) :
    (lookupCache w ((k, v) :: l)).isSome = true := by
  by_cases hk : k = w <;> simp [lookupCache, hk, h]

lemma contains_cons_of_contains (k k' : ItemKey) (l : List ItemKey)
    (h : l.contains k = true) : (k' :: l).contains k = true := by
  have hm : k ∈ l := by simpa using h
  simp [List.contains_cons]
  right
  simpa using hm

/-- `resolveWord` preserves everything except the cache and the trace, where
it appends at most one `wordFetch`; it only issues a call when the state is
not stopped and the id is uncached. -/
lemma resolveWord_pres (args : Args) (env : Env) (w : String) (st : ExpState)
    (hstop : st.stopEverything = false) : Pres args st (resolveWord env w st) := by
  unfold resolveWord
  cases hl : lookupCache w st.wordCache with
  | some v => exact Pres.refl args st
  | none =>
    constructor
    · intro inv
      constructor
      · simpa [emittedKeys_append, emittedKeys] using inv.emit_nodup
      · intro k hk
        apply inv.emit_seen
        simpa [emittedKeys_append, emittedKeys] using hk
      · have hnotin : w ∉ wordFetchIds st.trace := by
          intro hmem
          have := inv.wf_cached w hmem
          rw [hl] at this
          simp at this
        simpa [wordFetchIds_append, wordFetchIds, List.nodup_append] using
          And.intro inv.wf_nodup hnotin
      · intro x hx
        rw [wordFetchIds_append] at hx
        rcases List.mem_append.mp hx with hx | hx
        · exact lookupCache_cons_isSome x w (env.fetchWordDetail w) st.wordCache
            (inv.wf_cached x hx)
        · have : x = w := by simpa [wordFetchIds] using hx
          subst this
          simp [lookupCache]
      · simpa [emitCount, emittedKeys_append, emittedKeys] using inv.printed_emits
      · exact inv.results_nodup
      · exact inv.stop_sync
      · intro hAll hExp
        rw [chkCalls_append_call _ _ _ _ (by rfl)]
        have h1 := inv.calls_ok hAll hExp
        have h2 := inv.stop_sync hAll hExp
        rw [hstop] at h2
        have hlt : (st.printed : Int) < args.expected := by
          by_contra hge
          push_neg at hge
          simp [hge] at h2
        have : st.printed < args.expected.toNat := by omega
        rw [← inv.printed_emits]
        simp [h1, this]
    · simp [foldersCalls_append, foldersCalls]

lemma insertAssoc_cons_eq (k : ItemKey) (v v' : Record)
    (rest : List (ItemKey × Record)) :
    insertAssoc k v ((k, v') :: rest) = (k, v) :: rest := by
  simp [insertAssoc]

lemma insertAssoc_cons_ne (k k' : ItemKey) (v v' : Record)
    (rest : List (ItemKey × Record)) (h : k' ≠ k) :
    insertAssoc k v ((k', v') :: rest) = (k', v') :: insertAssoc k v rest := by
  simp [insertAssoc, h]

lemma mem_keys_insertAssoc (x k : ItemKey) (v : Record)
    (l : List (ItemKey × Record)) :
    x ∈ (insertAssoc k v l).map Prod.fst ↔ x = k ∨ x ∈ l.map Prod.fst := by
  induction l with
  | nil => simp [insertAssoc]
  | cons p rest ih =>
    obtain ⟨k', v'⟩ := p
    by_cases hk : k' = k
    · subst hk
      rw [insertAssoc_cons_eq]
      simp
    · rw [insertAssoc_cons_ne k k' v v' rest hk]
      simp only [List.map_cons, List.mem_cons, ih]
      tauto

lemma insertAssoc_keys_nodup (k : ItemKey) (v : Record)
    (l : List (ItemKey × Record)) (h : (l.map Prod.fst).Nodup) :
    ((insertAssoc k v l).map Prod.fst).Nodup := by
  induction l with
  | nil => simp [insertAssoc]
  | cons p rest ih =>
    obtain ⟨k', v'⟩ := p
    rw [List.map_cons, List.nodup_cons] at h
    by_cases hk : k' = k
    · subst hk
      rw [insertAssoc_cons_eq, List.map_cons, List.nodup_cons]
      exact h
    · rw [insertAssoc_cons_ne k k' v v' rest hk, List.map_cons, List.nodup_cons]
      refine ⟨fun hmem => ?_, ih h.2⟩
      rcases (mem_keys_insertAssoc k' k v rest).mp hmem with h1 | h1
      · exact hk h1
      · exact h.1 h1

/-- `emitRecord` preserves the invariant when the emitted key is globally
seen, not yet emitted, and the state is not stopped. -/
lemma emitRecord_inv (args : Args) (key : ItemKey) (r : Record) (st : ExpState)
    (hstop : st.stopEverything = false)
    (hseen : st.seenGlobal.contains key = true)
    (hnew : key ∉ emittedKeys st.trace)
    (inv : Inv args st) : Inv args (emitRecord args key r st).1 := by
  have htr : emittedKeys (st.trace ++ [GEvent.emit key]) =
      emittedKeys st.trace ++ [key] := by
    rw [emittedKeys_append]
    rfl
  constructor
  · show (emittedKeys (st.trace ++ [GEvent.emit key])).Nodup
    rw [htr, List.nodup_append]
    refine ⟨inv.emit_nodup, List.nodup_singleton key, ?_⟩
    intro a ha hb
    rw [List.mem_singleton] at hb
    subst hb
    exact hnew ha
  · show ∀ k ∈ emittedKeys (st.trace ++ [GEvent.emit key]), _
    intro k hk
    rw [emittedKeys_append] at hk
    rcases List.mem_append.mp hk with hk | hk
    · exact inv.emit_seen k hk
    · have : k = key := by simpa [emittedKeys] using hk
      subst this
      exact hseen
  · show (wordFetchIds (st.trace ++ [GEvent.emit key])).Nodup
    simpa [wordFetchIds_append, wordFetchIds] using inv.wf_nodup
  · show ∀ w ∈ wordFetchIds (st.trace ++ [GEvent.emit key]), _
    intro w hw
    rw [wordFetchIds_append] at hw
    have hw' : w ∈ wordFetchIds st.trace := by
      simpa [wordFetchIds] using hw
    exact inv.wf_cached w hw'
  · show st.printed + 1 = emitCount (st.trace ++ [GEvent.emit key])
    simp [emitCount, emittedKeys_append, emittedKeys]
    exact inv.printed_emits
  · show (List.map Prod.fst (if args.jsonOutput = true then insertAssoc key r st.results else st.results)).Nodup
    by_cases hj : args.jsonOutput = true
    · rw [if_pos hj]
      exact insertAssoc_keys_nodup key r st.results inv.results_nodup
    · rw [if_neg hj]
      exact inv.results_nodup
  · intro hAll hExp
    show (_ || st.stopEverything) = _
    rw [hstop, hAll]
    simp only [Bool.or_false, Bool.true_and]
    rw [decide_eq_true hExp]
    simp only [Bool.true_and]
    rfl
  · intro hAll hExp
    show chkCalls args.expected.toNat 0 (st.trace ++ [GEvent.emit key]) = true
    rw [chkCalls_append_emit]
    exact inv.calls_ok hAll hExp

lemma emitRecord_folders (args : Args) (key : ItemKey) (r : Record)
    (st : ExpState) :
    foldersCalls (emitRecord args key r st).1.trace = foldersCalls st.trace := by
  show foldersCalls (st.trace ++ [GEvent.emit key]) = foldersCalls st.trace
  simp [foldersCalls_append, foldersCalls]

lemma emitRecord_stop_brk (args : Args) (key : ItemKey) (r : Record)
    (st : ExpState) (hstop : st.stopEverything = false) :
    (emitRecord args key r st).1.stopEverything = true →
      (emitRecord args key r st).2 = true := by
  show (_ || st.stopEverything) = true → _
  rw [hstop, Bool.or_false]
  intro h
  exact h

/-- `resolveWord` leaves everything except the cache and its own trace
event unchanged. -/
lemma resolveWord_obs (env : Env) (w : String) (st : ExpState) :
    (resolveWord env w st).seenGlobal = st.seenGlobal
    ∧ (resolveWord env w st).printed = st.printed
    ∧ (resolveWord env w st).stopEverything = st.stopEverything
    ∧ (resolveWord env w st).results = st.results
    ∧ emittedKeys (resolveWord env w st).trace = emittedKeys st.trace := by
  unfold resolveWord
  cases lookupCache w st.wordCache <;>
    simp [emittedKeys_append, emittedKeys]

lemma contains_cons_self (k : ItemKey) (l : List ItemKey) :
    (k :: l).contains k = true := by
  simp [List.contains_cons]

/-- Marking a key globally seen preserves the invariant. -/
lemma seenInsert_pres (args : Args) (st : ExpState) (key : ItemKey) :
    Pres args st { st with seenGlobal := key :: st.seenGlobal } := by
  refine ⟨fun inv => ?_, rfl⟩
  exact {
    emit_nodup := inv.emit_nodup
    emit_seen := fun k hk => contains_cons_of_contains k key _ (inv.emit_seen k hk)
    wf_nodup := inv.wf_nodup
    wf_cached := inv.wf_cached
    printed_emits := inv.printed_emits
    results_nodup := inv.results_nodup
    stop_sync := inv.stop_sync
    calls_ok := inv.calls_ok }

/-- The state part of the sentence classifier is exactly the (conditional)
word resolution. -/
lemma classifySent_fst (env : Env) (folderId folderTitle : String)
    (sortType : Int) (tt : Int) (itemId : String) (t : Target) (st : ExpState) :
    (classifySent env folderId folderTitle sortType tt itemId t st).1 =
      if t.wordId ≠ "" then resolveWord env t.wordId st else st := by
  rfl

/-- The state part of the word-field completion is exactly the (conditional)
word resolution. -/
lemma wordFieldsAfter_st (env : Env) (t : Target) (st : ExpState) :
    (wordFieldsAfter env t st).st =
      if pyOr t.objectId t.id ≠ ""
          ∧ (pyStrip (pyOr t.spell t.title) = "" ∨ pyStrip t.pron = "") then
        resolveWord env (pyOr t.objectId t.id) st
      else st := by
  simp only [wordFieldsAfter]
  by_cases h : pyOr t.objectId t.id ≠ ""
      ∧ (pyStrip (pyOr t.spell t.title) = "" ∨ pyStrip t.pron = "")
  · rw [if_pos h, if_pos h]
    cases cachedWord (resolveWord env (pyOr t.objectId t.id) st) (pyOr t.objectId t.id) <;> rfl
  · rw [if_neg h, if_neg h]

lemma classifyWord_fst (env : Env) (folderId folderTitle : String)
    (sortType : Int) (itemId : String) (t : Target) (st : ExpState) :
    (classifyWord env folderId folderTitle sortType itemId t st).1 =
      (wordFieldsAfter env t st).st := by
  rfl

lemma classifySent_pres (args : Args) (env : Env)
    (folderId folderTitle : String) (sortType : Int) (tt : Int)
    (itemId : String) (t : Target) (st : ExpState)
    (hstop : st.stopEverything = false) :
    Pres args st (classifySent env folderId folderTitle sortType tt itemId t st).1 := by
  rw [classifySent_fst]
  by_cases h : t.wordId ≠ ""
  · rw [if_pos h]
    exact resolveWord_pres args env t.wordId st hstop
  · rw [if_neg h]
    exact Pres.refl args st

lemma classifyWord_pres (args : Args) (env : Env)
    (folderId folderTitle : String) (sortType : Int) (itemId : String)
    (t : Target) (st : ExpState) (hstop : st.stopEverything = false) :
    Pres args st (classifyWord env folderId folderTitle sortType itemId t st).1 := by
  rw [classifyWord_fst, wordFieldsAfter_st]
  split
  · exact resolveWord_pres args env _ st hstop
  · exact Pres.refl args st

lemma classifySent_obs (env : Env) (folderId folderTitle : String)
    (sortType : Int) (tt : Int) (itemId : String) (t : Target) (st : ExpState) :
    (classifySent env folderId folderTitle sortType tt itemId t st).1.seenGlobal = st.seenGlobal
    ∧ (classifySent env folderId folderTitle sortType tt itemId t st).1.printed = st.printed
    ∧ (classifySent env folderId folderTitle sortType tt itemId t st).1.stopEverything = st.stopEverything
    ∧ emittedKeys (classifySent env folderId folderTitle sortType tt itemId t st).1.trace
        = emittedKeys st.trace := by
  rw [classifySent_fst]
  by_cases h : t.wordId ≠ ""
  · rw [if_pos h]
    obtain ⟨h1, h2, h3, _, h5⟩ := resolveWord_obs env t.wordId st
    exact ⟨h1, h2, h3, h5⟩
  · rw [if_neg h]
    exact ⟨rfl, rfl, rfl, rfl⟩

lemma classifyWord_obs (env : Env) (folderId folderTitle : String)
    (sortType : Int) (itemId : String) (t : Target) (st : ExpState) :
    (classifyWord env folderId folderTitle sortType itemId t st).1.seenGlobal = st.seenGlobal
    ∧ (classifyWord env folderId folderTitle sortType itemId t st).1.printed = st.printed
    ∧ (classifyWord env folderId folderTitle sortType itemId t st).1.stopEverything = st.stopEverything
    ∧ emittedKeys (classifyWord env folderId folderTitle sortType itemId t st).1.trace
        = emittedKeys st.trace := by
  rw [classifyWord_fst, wordFieldsAfter_st]
  split
  · obtain ⟨h1, h2, h3, _, h5⟩ := resolveWord_obs env _ st
    exact ⟨h1, h2, h3, h5⟩
  · exact ⟨rfl, rfl, rfl, rfl⟩

lemma afterItem_fst (args : Args) (acc : ProcAcc) :
    (afterItem args acc).1 = acc := by
  unfold afterItem
  split <;> rfl

lemma bool_false_true {b : Bool} (hf : b = false) (ht : b = true) : False := by
  rw [hf] at ht
  exact Bool.false_ne_true ht

/-- The glue between a classifier result and the sink preserves the
invariant from the state `st0` that held before the key was marked
globally seen. -/
lemma classifyEmit_pres (args : Args) (key : ItemKey)
    (res : ExpState × Option Record) (acc : ProcAcc) (st0 : ExpState)
    (h0 : acc.st = { st0 with seenGlobal := key :: st0.seenGlobal })
    (hstop0 : st0.stopEverything = false)
    (hkeynotseen : st0.seenGlobal.contains key = false)
    (hPres : Pres args acc.st res.1)
    (hobs : res.1.seenGlobal = acc.st.seenGlobal
      ∧ res.1.printed = acc.st.printed
      ∧ res.1.stopEverything = acc.st.stopEverything
      ∧ emittedKeys res.1.trace = emittedKeys acc.st.trace) :
    Pres args st0 (classifyEmit args key res acc).1.st
    ∧ ((classifyEmit args key res acc).1.st.stopEverything = true →
        (classifyEmit args key res acc).2 = true) := by
  have hPres0 : Pres args st0 acc.st := by
    rw [h0]
    exact seenInsert_pres args st0 key
  obtain ⟨stc, ro⟩ := res
  simp only at hPres hobs
  have hstopc : stc.stopEverything = false := by
    rw [hobs.2.2.1, h0]
    exact hstop0
  have hseenc : stc.seenGlobal.contains key = true := by
    rw [hobs.1, h0]
    exact contains_cons_self key st0.seenGlobal
  cases ro with
  | none =>
    have hfst : (classifyEmit args key (stc, none) acc).1.st = stc := by
      unfold classifyEmit
      dsimp only
      rw [afterItem_fst]
    rw [hfst]
    refine ⟨hPres0.trans hPres, fun h => absurd h ?_⟩
    rw [hstopc]
    exact Bool.false_ne_true
  | some r =>
    have hfst : (classifyEmit args key (stc, some r) acc).1.st = (emitRecord args key r stc).1 := by
      unfold classifyEmit
      dsimp only
      split
      · rfl
      · rw [afterItem_fst]
    constructor
    · rw [hfst]
      refine ⟨fun inv0 => ?_, ?_⟩
      · have hnew0 : key ∉ emittedKeys st0.trace := by
          intro hm
          exact bool_false_true hkeynotseen (inv0.emit_seen key hm)
        have hnewc : key ∉ emittedKeys stc.trace := by
          rw [hobs.2.2.2, h0]
          exact hnew0
        exact emitRecord_inv args key r stc hstopc hseenc hnewc
          (hPres.1 (hPres0.1 inv0))
      · rw [emitRecord_folders, hPres.2, hPres0.2]
    · rw [hfst]
      intro h
      have hbrk := emitRecord_stop_brk args key r stc hstopc h
      unfold classifyEmit
      dsimp only
      split
      · rfl
      · next hneg =>
        exact absurd hbrk hneg

lemma markFolderSeen_st (args : Args) (key : ItemKey) (acc : ProcAcc) :
    (markFolderSeen args key acc).st = acc.st := by
  unfold markFolderSeen
  split <;> rfl

lemma markGlobalSeen_st (args : Args) (key : ItemKey) (acc : ProcAcc) :
    (markGlobalSeen args key acc).st =
      { acc.st with seenGlobal := key :: acc.st.seenGlobal } := by
  unfold markGlobalSeen
  split <;> rfl

/-- Type dispatch and emission preserve the invariant from the state that
held before the key was marked globally seen. -/
lemma processFreshItem_pres (args : Args) (env : Env)
    (folderId folderTitle : String) (sortType : Int) (it : RawItem)
    (t : Target) (key : ItemKey) (acc3 : ProcAcc) (st0 : ExpState)
    (h0 : acc3.st = { st0 with seenGlobal := key :: st0.seenGlobal })
    (hstop0 : st0.stopEverything = false)
    (hkeynotseen : st0.seenGlobal.contains key = false) :
    Pres args st0 (processFreshItem args env folderId folderTitle sortType it t key acc3).1.st
    ∧ ((processFreshItem args env folderId folderTitle sortType it t key acc3).1.st.stopEverything = true
        → (processFreshItem args env folderId folderTitle sortType it t key acc3).2 = true) := by
  have hstop3 : acc3.st.stopEverything = false := by
    rw [h0]
    exact hstop0
  have hins : Pres args st0 acc3.st := by
    rw [h0]
    exact seenInsert_pres args st0 key
  unfold processFreshItem
  cases htt : it.targetType with
  | none =>
    dsimp only
    rw [afterItem_fst]
    exact ⟨hins, fun h => absurd h (by rw [hstop3]; exact Bool.false_ne_true)⟩
  | some tt =>
    dsimp only
    by_cases h4 : tt = 103 ∨ tt = 120
    · rw [if_pos h4]
      exact classifyEmit_pres args key _ acc3 st0 h0 hstop0 hkeynotseen
        (classifySent_pres args env folderId folderTitle sortType tt (itemIdOf t) t acc3.st hstop3)
        (classifySent_obs env folderId folderTitle sortType tt (itemIdOf t) t acc3.st)
    · rw [if_neg h4]
      by_cases h5 : tt = 102
      · rw [if_pos h5]
        exact classifyEmit_pres args key _ acc3 st0 h0 hstop0 hkeynotseen
          (classifyWord_pres args env folderId folderTitle sortType (itemIdOf t) t acc3.st hstop3)
          (classifyWord_obs env folderId folderTitle sortType (itemIdOf t) t acc3.st)
      · rw [if_neg h5]
        rw [afterItem_fst]
        exact ⟨hins, fun h => absurd h (by rw [hstop3]; exact Bool.false_ne_true)⟩

lemma processNewInFolder_pres (args : Args) (allowed : List Int) (env : Env)
    (folderId folderTitle : String) (sortType : Int) (it : RawItem)
    (t : Target) (key : ItemKey) (acc1 : ProcAcc)
    (hstop : acc1.st.stopEverything = false) :
    Pres args acc1.st (processNewInFolder args allowed env folderId folderTitle sortType it t key acc1).1.st
    ∧ ((processNewInFolder args allowed env folderId folderTitle sortType it t key acc1).1.st.stopEverything = true
        → (processNewInFolder args allowed env folderId folderTitle sortType it t key acc1).2 = true) := by
  unfold processNewInFolder
  by_cases h2 : typeAllowed allowed it.targetType = false
  · rw [if_pos h2]
    exact ⟨Pres.refl args acc1.st, fun h => absurd h (by rw [hstop]; exact Bool.false_ne_true)⟩
  · rw [if_neg h2]
    by_cases h3 : acc1.st.seenGlobal.contains key = true
    · rw [if_pos h3]
      exact ⟨Pres.refl args acc1.st, fun h => absurd h (by rw [hstop]; exact Bool.false_ne_true)⟩
    · rw [if_neg h3]
      exact processFreshItem_pres args env folderId folderTitle sortType it t key
        (markGlobalSeen args key acc1) acc1.st (markGlobalSeen_st args key acc1)
        hstop (Bool.of_not_eq_true h3)

/-- One item-loop iteration preserves the invariant, and raises the stop
flag only together with the loop break. -/
lemma processOneItem_pres (args : Args) (allowed : List Int) (env : Env)
    (folderId folderTitle : String) (sortType : Int) (it : RawItem)
    (acc : ProcAcc) (hstop : acc.st.stopEverything = false) :
    Pres args acc.st (processOneItem args allowed env folderId folderTitle sortType it acc).1.st
    ∧ ((processOneItem args allowed env folderId folderTitle sortType it acc).1.st.stopEverything = true
        → (processOneItem args allowed env folderId folderTitle sortType it acc).2 = true) := by
  unfold processOneItem
  cases htarget : it.target with
  | none =>
    exact ⟨Pres.refl args acc.st, fun h => absurd h (by rw [hstop]; exact Bool.false_ne_true)⟩
  | some t =>
    dsimp only
    simp only [processTargetItem]
    by_cases h1 : args.fetchAll = true ∧ acc.fs.contains (keyOf it t) = true
    · rw [if_pos h1]
      exact ⟨Pres.refl args acc.st, fun h => absurd h (by rw [hstop]; exact Bool.false_ne_true)⟩
    · rw [if_neg h1]
      have h := processNewInFolder_pres args allowed env folderId folderTitle sortType it t
        (keyOf it t) (markFolderSeen args (keyOf it t) acc)
        (by rw [markFolderSeen_st]; exact hstop)
      rw [markFolderSeen_st] at h
      exact h

/-- The whole item loop preserves the invariant, and raises the stop flag
only together with the early-break flag. -/
lemma processItems_pres (args : Args) (allowed : List Int) (env : Env)
    (folderId folderTitle : String) (sortType : Int) (items : List RawItem) :
    ∀ (acc : ProcAcc), acc.st.stopEverything = false →
    Pres args acc.st (processItems args allowed env folderId folderTitle sortType items acc).1.st
    ∧ ((processItems args allowed env folderId folderTitle sortType items acc).1.st.stopEverything = true
        → (processItems args allowed env folderId folderTitle sortType items acc).2 = true) := by
  induction items with
  | nil =>
    intro acc hstop
    exact ⟨Pres.refl args acc.st, fun h => (bool_false_true hstop h).elim⟩
  | cons it rest ih =>
    intro acc hstop
    have h := processOneItem_pres args allowed env folderId folderTitle sortType it acc hstop
    have hres : processItems args allowed env folderId folderTitle sortType (it :: rest) acc
        = (match processOneItem args allowed env folderId folderTitle sortType it acc with
          | (a, true) => (a, true)
          | (a, false) => processItems args allowed env folderId folderTitle sortType rest a) := rfl
    rcases hpo : processOneItem args allowed env folderId folderTitle sortType it acc with ⟨acc1, brk⟩
    rw [hpo] at h hres
    cases brk with
    | true =>
      rw [hres]
      exact ⟨h.1, fun _ => rfl⟩
    | false =>
      have hstop1 : acc1.st.stopEverything = false := by
        cases hs : acc1.st.stopEverything with
        | false => rfl
        | true => exact absurd (h.2 hs) Bool.false_ne_true
      rw [hres]
      have hrec := ih acc1 hstop1
      exact ⟨h.1.trans hrec.1, hrec.2⟩

/-- Appending a page-fetch call preserves the invariant when not stopped. -/
lemma appendPageFetch_pres (args : Args) (st : ExpState)
    (folderId : String) (sortType pageIndex : Int)
    (hstop : st.stopEverything = false) :
    Pres args st { st with trace := st.trace ++ [GEvent.pageFetch folderId sortType pageIndex] } := by
  constructor
  · intro inv
    constructor
    · simpa [emittedKeys_append, emittedKeys] using inv.emit_nodup
    · intro k hk
      apply inv.emit_seen
      simpa [emittedKeys_append, emittedKeys] using hk
    · simpa [wordFetchIds_append, wordFetchIds] using inv.wf_nodup
    · intro w hw
      apply inv.wf_cached
      simpa [wordFetchIds_append, wordFetchIds] using hw
    · simpa [emitCount, emittedKeys_append, emittedKeys] using inv.printed_emits
    · exact inv.results_nodup
    · exact inv.stop_sync
    · intro hAll hExp
      rw [chkCalls_append_call _ _ _ _ (by rfl)]
      have h1 := inv.calls_ok hAll hExp
      have h2 := inv.stop_sync hAll hExp
      rw [hstop] at h2
      have hlt : (st.printed : Int) < args.expected := by
        by_contra hge
        push_neg at hge
        simp [hge] at h2
      have : st.printed < args.expected.toNat := by omega
      rw [← inv.printed_emits]
      simp [h1, this]
  · simp [foldersCalls_append, foldersCalls]

/-- The page loop preserves the invariant. -/
lemma pageLoop_pres (args : Args) (allowed : List Int) (env : Env)
    (folderId folderTitle : String) (sortType : Int) :
    ∀ (fuel : Nat) (pageIndex : Int) (totalPages : Option Int) (streak : Nat)
    (fs : List ItemKey) (st : ExpState),
    Pres args st (pageLoop args allowed env folderId folderTitle sortType
      fuel pageIndex totalPages streak fs st).1 := by
  intro fuel
  induction fuel with
  | zero =>
    intro p tp streak fs st
    exact Pres.refl args st
  | succ fuel ih =>
    intro p tp streak fs st
    show Pres args st (pageLoop args allowed env folderId folderTitle sortType
      (Nat.succ fuel) p tp streak fs st).1
    unfold pageLoop
    by_cases hstop : st.stopEverything = true
    · rw [if_pos hstop]
      exact Pres.refl args st
    · rw [if_neg hstop]
      have hstopf : st.stopEverything = false := Bool.of_not_eq_true hstop
      have hP1 : Pres args st
          { st with trace := st.trace ++ [GEvent.pageFetch folderId sortType p] } :=
        appendPageFetch_pres args st folderId sortType p hstopf
      set st1 := { st with trace := st.trace ++ [GEvent.pageFetch folderId sortType p] } with hst1
      by_cases hcode : (env.fetchPage folderId sortType p).code ≠ 200
      · rw [if_pos hcode]
        exact hP1
      · rw [if_neg hcode]
        by_cases hempty : (env.fetchPage folderId sortType p).items.isEmpty = true
        · rw [if_pos hempty]
          exact hP1
        · rw [if_neg hempty]
          have hstop1 : st1.stopEverything = false := hstopf
          have hpi := processItems_pres args allowed env folderId folderTitle sortType
            (env.fetchPage folderId sortType p).items
            { fs := fs, st := st1, newAny := 0, newSel := 0 } hstop1
          set out := processItems args allowed env folderId folderTitle sortType
            (env.fetchPage folderId sortType p).items
            { fs := fs, st := st1, newAny := 0, newSel := 0 } with hout
          have hchain : Pres args st out.1.st := hP1.trans hpi.1
          by_cases hstop2 : out.1.st.stopEverything = true
          · rw [if_pos hstop2]
            exact hchain
          · rw [if_neg hstop2]
            by_cases hall : args.fetchAll = false
            · rw [if_pos hall]
              exact hchain
            · rw [if_neg hall]
              dsimp only
              by_cases hs1 : max 1 args.stopAfterNoNew ≤ ((updateStreak out.1.newAny streak : Nat) : Int)
              · rw [if_pos hs1]
                exact hchain
              · rw [if_neg hs1]
                by_cases hs2 : (match (match tp with
                    | some tp' => some tp'
                    | none => match (env.fetchPage folderId sortType p).totalPage with
                      | some tp' => if 0 < tp' then some tp' else none
                      | none => none) with
                    | some tp' => decide (tp' ≤ p)
                    | none => false) = true
                · rw [if_pos hs2]
                  exact hchain
                · rw [if_neg hs2]
                  by_cases hs3 : 0 < args.maxPages ∧ args.maxPages ≤ p - args.page + 1
                  · rw [if_pos hs3]
                    exact hchain
                  · rw [if_neg hs3]
                    exact hchain.trans (ih (p + 1) _ (updateStreak out.1.newAny streak)
                      out.1.fs out.1.st)

/-- The sort-type loop preserves the invariant. -/
lemma runSorts_pres (args : Args) (allowed : List Int) (env : Env)
    (folderId folderTitle : String) (fuel : Nat) :
    ∀ (sorts : List Int) (st : ExpState),
    Pres args st (runSorts args allowed env folderId folderTitle fuel sorts st).1 := by
  intro sorts
  induction sorts with
  | nil =>
    intro st
    exact Pres.refl args st
  | cons s rest ih =>
    intro st
    have hP := pageLoop_pres args allowed env folderId folderTitle s fuel args.page none 0 [] st
    have hres : runSorts args allowed env folderId folderTitle fuel (s :: rest) st
        = (match exportOneFolder args allowed env folderId folderTitle s fuel st with
          | (st1, true) => (st1, true)
          | (st1, false) =>
            if st1.stopEverything = true then (st1, false)
            else runSorts args allowed env folderId folderTitle fuel rest st1) := rfl
    rcases hpl : exportOneFolder args allowed env folderId folderTitle s fuel st with ⟨st1, ab⟩
    rw [hpl] at hres
    have hP1 : Pres args st st1 := by
      have heq : st1 = (exportOneFolder args allowed env folderId folderTitle s fuel st).1 := by
        rw [hpl]
      rw [heq]
      exact hP
    cases ab with
    | true =>
      rw [hres]
      exact hP1
    | false =>
      rw [hres]
      show Pres args st (if st1.stopEverything = true then (st1, false)
        else runSorts args allowed env folderId folderTitle fuel rest st1).1
      by_cases hs : st1.stopEverything = true
      · rw [if_pos hs]
        exact hP1
      · rw [if_neg hs]
        exact hP1.trans (ih st1)

/-- The folder loop preserves the invariant. -/
lemma runFolders_pres (args : Args) (allowed : List Int) (env : Env)
    (fuel : Nat) (sorts : List Int) :
    ∀ (folders : List (String × String)) (st : ExpState),
    Pres args st (runFolders args allowed env fuel sorts folders st).1 := by
  intro folders
  induction folders with
  | nil =>
    intro st
    exact Pres.refl args st
  | cons f rest ih =>
    intro st
    obtain ⟨fid, ftitle⟩ := f
    have hres : runFolders args allowed env fuel sorts ((fid, ftitle) :: rest) st
        = (if fid = "" then runFolders args allowed env fuel sorts rest st
          else
            match runSorts args allowed env fid ftitle fuel sorts st with
            | (st1, true) => (st1, true)
            | (st1, false) =>
              if st1.stopEverything = true then (st1, false)
              else if args.fetchAll = false then (st1, false)
              else runFolders args allowed env fuel sorts rest st1) := rfl
    rw [hres]
    by_cases hfid : fid = ""
    · rw [if_pos hfid]
      exact ih st
    · rw [if_neg hfid]
      have hP := runSorts_pres args allowed env fid ftitle fuel sorts st
      rcases hrs : runSorts args allowed env fid ftitle fuel sorts st with ⟨st1, ab⟩
      have hP1 : Pres args st st1 := by
        have heq : st1 = (runSorts args allowed env fid ftitle fuel sorts st).1 := by
          rw [hrs]
        rw [heq]
        exact hP
      cases ab with
      | true =>
        exact hP1
      | false =>
        show Pres args st (if st1.stopEverything = true then (st1, false)
          else if args.fetchAll = false then (st1, false)
          else runFolders args allowed env fuel sorts rest st1).1
        by_cases hs : st1.stopEverything = true
        · rw [if_pos hs]
          exact hP1
        · rw [if_neg hs]
          by_cases hall : args.fetchAll = false
          · rw [if_pos hall]
            exact hP1
          · rw [if_neg hall]
            exact hP1.trans (ih st1)

/-- The invariant holds for a fresh state whose trace has no emits and no
word fetches (the post-discovery starting state). -/
lemma inv_init (args : Args) (tr : List GEvent)
    (he : emittedKeys tr = []) (hw : wordFetchIds tr = []) :
    Inv args { trace := tr } := by
  constructor
  · show (emittedKeys tr).Nodup
    rw [he]
    exact List.nodup_nil
  · intro k hk
    rw [he] at hk
    exact absurd hk (List.not_mem_nil k)
  · show (wordFetchIds tr).Nodup
    rw [hw]
    exact List.nodup_nil
  · intro w hww
    rw [hw] at hww
    exact absurd hww (List.not_mem_nil w)
  · show 0 = emitCount tr
    rw [emitCount, he]
    rfl
  · show (List.map Prod.fst ([] : List (ItemKey × Record))).Nodup
    exact List.nodup_nil
  · intro hAll hExp
    show false = decide (args.expected ≤ ((0 : Nat) : Int))
    have hne : ¬ (args.expected ≤ ((0 : Nat) : Int)) := by
      simp only [Nat.cast_zero]
      omega
    exact (decide_eq_false hne).symm
  · intro hAll hExp
    exact chkCalls_no_emit args.expected.toNat 0 tr he (by omega)

/-- Folder discovery emits nothing and fetches no word details. -/
lemma discoverFolders_clean (args : Args) (env : Env) :
    emittedKeys (discoverFolders args env).2 = []
    ∧ wordFetchIds (discoverFolders args env).2 = [] := by
  unfold discoverFolders
  dsimp only
  split
  · exact ⟨rfl, rfl⟩
  · split
    · exact ⟨rfl, rfl⟩
    · split
      · split
        · split
          · exact ⟨rfl, rfl⟩
          · exact ⟨rfl, rfl⟩
        · exact ⟨rfl, rfl⟩
      · exact ⟨rfl, rfl⟩

/-- After the early exits, the run either stops before the traversal or is
the traversal applied to the fresh post-discovery state. -/
lemma mainRun_shape (args : Args) (env : Env) (fuel : Nat)
    (hTok : ¬ args.sessionToken = "")
    (hTgt : args.targetsForItem = "")
    (hJson : ¬ (args.jsonOutput = true ∧ args.output = "")) :
    (mainRun args env fuel).2 = { trace := (discoverFolders args env).2 }
    ∨ ∃ allowed sorts efs,
      (mainRun args env fuel).2 =
        (runFolders args allowed env fuel sorts efs
          { trace := (discoverFolders args env).2 }).1 := by
  unfold mainRun
  rw [if_neg hTok, if_neg (not_not_intro hTgt), if_neg hJson]
  rcases hd : discoverFolders args env with ⟨res, tr⟩
  dsimp only
  cases res with
  | fail =>
    left
    rfl
  | ok folders =>
    dsimp only
    cases hsel : selectExportFolders args folders with
    | none =>
      left
      rfl
    | some efs =>
      cases hpt : parseTargetTypes args.targetTypes with
      | error m =>
        left
        rfl
      | ok explicitTypes =>
        dsimp only
        cases hps : parseSortTypes args.sortTypes with
        | error m =>
          left
          rfl
        | ok sortList =>
          dsimp only
          right
          cases explicitTypes with
          | some l =>
            refine ⟨l, (if args.fetchAll = true ∧ ¬ sortList.isEmpty then sortList
              else [args.sortType]), efs, ?_⟩
            rcases hrf : runFolders args l env fuel
              (if args.fetchAll = true ∧ ¬ sortList.isEmpty then sortList
                else [args.sortType]) efs { trace := tr } with ⟨st1, ab⟩
            cases ab <;> rfl
          | none =>
            refine ⟨modeTypes args.mode,
              (if args.fetchAll = true ∧ ¬ sortList.isEmpty then sortList
                else [args.sortType]), efs, ?_⟩
            rcases hrf : runFolders args (modeTypes args.mode) env fuel
              (if args.fetchAll = true ∧ ¬ sortList.isEmpty then sortList
                else [args.sortType]) efs { trace := tr } with ⟨st1, ab⟩
            cases ab <;> rfl

/-- The master invariant holds of every run's final state. -/
lemma mainRun_inv (args : Args) (env : Env) (fuel : Nat) :
    Inv args (mainRun args env fuel).2 := by
  by_cases hTok : args.sessionToken = ""
  · unfold mainRun
    rw [if_pos hTok]
    show Inv args { trace := ([] : List GEvent) }
    exact inv_init args [] rfl rfl
  · by_cases hTgt : args.targetsForItem ≠ ""
    · unfold mainRun
      rw [if_neg hTok, if_pos hTgt]
      dsimp only
      split <;>
      · show Inv args { trace := [GEvent.targetsFetch args.targetsForItem] }
        exact inv_init args [GEvent.targetsFetch args.targetsForItem] rfl rfl
    · by_cases hJson : args.jsonOutput = true ∧ args.output = ""
      · unfold mainRun
        rw [if_neg hTok, if_neg hTgt, if_pos hJson]
        show Inv args { trace := ([] : List GEvent) }
        exact inv_init args [] rfl rfl
      · have hTgt' : args.targetsForItem = "" := by
          by_contra hc
          exact hTgt hc
        obtain ⟨hce, hcw⟩ := discoverFolders_clean args env
        have hinv0 : Inv args { trace := (discoverFolders args env).2 } :=
          inv_init args (discoverFolders args env).2 hce hcw
        rcases mainRun_shape args env fuel hTok hTgt' hJson with h | ⟨allowed, sorts, efs, h⟩
        · rw [h]
          exact hinv0
        · rw [h]
          exact (runFolders_pres args allowed env fuel sorts efs _).1 hinv0

/-- Past the early exits, the only `fetchMyFolders` calls of a run are the
discovery ones. -/
lemma mainRun_folders (args : Args) (env : Env) (fuel : Nat)
    (hTok : ¬ args.sessionToken = "")
    (hTgt : args.targetsForItem = "")
    (hJson : ¬ (args.jsonOutput = true ∧ args.output = "")) :
    foldersCalls (mainRun args env fuel).2.trace =
      foldersCalls (discoverFolders args env).2 := by
  rcases mainRun_shape args env fuel hTok hTgt hJson with h | ⟨allowed, sorts, efs, h⟩
  · rw [h]
  · rw [h]
    exact (runFolders_pres args allowed env fuel sorts efs _).2

/-! ## Definitions used by the claim statements -/

/-- An item counts as never-seen-in-folder when its target is a dict and its
identity is not in the per-folder seen set (spec wording of line 748-752). -/
def newInFolder (fs : List ItemKey) (it : RawItem) : Bool :=
  match it.target with
  | some t => !(fs.contains (keyOf it t))
  | none => false

/-- The page contains at least one never-seen-in-folder identity. -/
def anyNewInFolder (fs : List ItemKey) (items : List RawItem) : Bool :=
  items.any (newInFolder fs)

/-- Reference count of never-seen-in-folder identities of a page, threading
the per-folder seen set left-to-right. -/
def countNew (fs : List ItemKey) : List RawItem → Nat
  | [] => 0
  | it :: rest =>
    match it.target with
    | none => countNew fs rest
    | some t =>
      if fs.contains (keyOf it t) = true then countNew fs rest
      else countNew (keyOf it t :: fs) rest + 1

/-- The display fields a resolution for `wid` yields (empty on failure or a
missing `word` sub-dict), as the word branch reads them. -/
def resolvedWordFields (env : Env) (wid : String) (st : ExpState) : WordFields :=
  match cachedWord (resolveWord env wid st) wid with
  | some w =>
    { spell := pyStrip w.spell, pron := pyStrip w.pron,
      accent := pyStrip w.accent, excerpt := pyStrip w.excerpt }
  | none => {}

/-- The configured type/sort lists contain an entry that does not parse. -/
def listsMalformed (args : Args) : Prop :=
  (∃ m, parseTargetTypes args.targetTypes = Except.error m)
  ∨ (∃ l, parseTargetTypes args.targetTypes = Except.ok l
      ∧ ∃ m, parseSortTypes args.sortTypes = Except.error m)

/-! ## Concrete fixtures for the witnesses and counterexamples -/

def tFixSent : Target := { objectId := "a1", title := "日本語1", trans := "t1", wordId := "w1" }

def tFixSent2 : Target := { objectId := "a2", title := "日本語2" }

/-- A sentence-like item whose `jp` is empty after fallback: the classifier
drops it. -/
def tFixDropped : Target := { objectId := "x1" }

def itFixSent : RawItem := { targetType := some 103, target := some tFixSent }

def itFixSent2 : RawItem := { targetType := some 103, target := some tFixSent2 }

def itFixDropped : RawItem := { targetType := some 103, target := some tFixDropped }

def itFixNoDict : RawItem := { targetType := some 103, target := none }

/-- A word target with no `objectId`/`id` and no inline `spell`. -/
def tFixNoId : Target := { excerpt := "" }

def envFix : Env :=
  { fetchWordDetail := fun w =>
      if w = "w1" then WordResp.ok (some { spell := "言葉", pron := "ことば" })
      else WordResp.err "HTTP 404"
    fetchPage := fun _ _ p =>
      if p = 1 then { code := 200, totalPage := some 2, items := [itFixSent, itFixSent2] }
      else if p = 2 then { code := 200, totalPage := some 2, items := [itFixSent, itFixSent2] }
      else { code := 200, totalPage := some 2, items := [] }
    fetchMyFolders := fun withPfid =>
      if withPfid then { code := 200, result := some [] }
      else { code := 200, result := some [some { targetId := "f1", title := "例文" }] }
    fetchItemTargets := fun _ => true }

def argsFix : Args := { sessionToken := "tok", fetchAll := true }

def stFixCached : ExpState := { wordCache := [("w1", WordResp.err "boom")] }

/-! ## Claim theorems -/

/-- C1: for every run, at most one Export Record is produced (printed, or
stored under its key in the buffered results map) per Item Identity: the
emitted keys of the whole run's trace are pairwise distinct, and so are the
keys of the buffered results map. -/
theorem spec_C1 (args : Args) (env : Env) (fuel : Nat) :
    (emittedKeys (mainRun args env fuel).2.trace).Nodup
    ∧ ((mainRun args env fuel).2.results.map Prod.fst).Nodup :=
  ⟨(mainRun_inv args env fuel).emit_nodup, (mainRun_inv args env fuel).results_nodup⟩

/-- C3: in `--all` mode with `expected = N > 0`, the run's stop flag is
raised exactly when the `N`-th globally-unique accepted record has been
produced (`printed` counts the emits, which are pairwise distinct by C1),
and every gateway call of the run happens strictly before the `N`-th emit:
after it, no page fetch, word-detail lookup, or folder-discovery call is
issued — the remaining pages, sort types, and folders are skipped. -/
theorem spec_C3 (args : Args) (env : Env) (fuel : Nat)
    (hAll : args.fetchAll = true) (hN : 0 < args.expected) :
    (mainRun args env fuel).2.stopEverything
      = decide (args.expected ≤ ((mainRun args env fuel).2.printed : Int))
    ∧ (mainRun args env fuel).2.printed = emitCount (mainRun args env fuel).2.trace
    ∧ chkCalls args.expected.toNat 0 (mainRun args env fuel).2.trace = true :=
  ⟨(mainRun_inv args env fuel).stop_sync hAll hN,
    (mainRun_inv args env fuel).printed_emits,
    (mainRun_inv args env fuel).calls_ok hAll hN⟩

/-- Witness for C3: a run with `expected = 1` over a two-page folder stops
mid-page with the flag raised and no later gateway call. -/
theorem spec_C3_witness :
    (mainRun { argsFix with expected := 1 } envFix 10).2.stopEverything
      = decide ((1 : Int) ≤ ((mainRun { argsFix with expected := 1 } envFix 10).2.printed : Int))
    ∧ (mainRun { argsFix with expected := 1 } envFix 10).2.printed
      = emitCount (mainRun { argsFix with expected := 1 } envFix 10).2.trace
    ∧ chkCalls (1 : Int).toNat 0 (mainRun { argsFix with expected := 1 } envFix 10).2.trace = true :=
  spec_C3 { argsFix with expected := 1 } envFix 10 rfl (by decide)

/-- C4: the word-detail endpoint is called at most once per word id per run
(the fetched ids of any run's trace are pairwise distinct); a resolve for a
cached id returns the state unchanged — the cached entry (including an
error sentinel) is reused without a new gateway call — and cache entries
are never evicted by later resolves. -/
theorem spec_C4 (args : Args) (env : Env) (fuel : Nat) (st : ExpState)
    (w w' : String) (r : WordResp)
    (hcached : lookupCache w st.wordCache = some r) :
    (wordFetchIds (mainRun args env fuel).2.trace).Nodup
    ∧ resolveWord env w st = st
    ∧ lookupCache w ((resolveWord env w' st).wordCache) = some r := by
  refine ⟨(mainRun_inv args env fuel).wf_nodup, ?_, ?_⟩
  · unfold resolveWord
    rw [hcached]
  · unfold resolveWord
    cases hl : lookupCache w' st.wordCache with
    | some v => exact hcached
    | none =>
      have hne : w' ≠ w := by
        intro he
        rw [he, hcached] at hl
        cases hl
      show lookupCache w ((w', env.fetchWordDetail w') :: st.wordCache) = some r
      unfold lookupCache
      rw [if_neg hne]
      exact hcached

/-- Witness for C4: the fetched ids of a concrete run are distinct, and a
resolve for the cached id `"w1"` (a cached failure) is a no-op that
survives a resolve for a different id. -/
theorem spec_C4_witness :
    (wordFetchIds (mainRun argsFix envFix 10).2.trace).Nodup
    ∧ resolveWord envFix "w1" stFixCached = stFixCached
    ∧ lookupCache "w1" ((resolveWord envFix "w2" stFixCached).wordCache)
        = some (WordResp.err "boom") :=
  spec_C4 argsFix envFix 10 stFixCached "w1" "w2" (WordResp.err "boom") rfl

/-- Folder discovery issues the pfid-scoped call, plus exactly one fallback
call without the scope when the scoped call succeeded with an empty list. -/
lemma discoverFolders_calls (args : Args) (env : Env) (fls : List (Option Folder))
    (hCode : (env.fetchMyFolders (args.pfid ≠ "")).code = 200)
    (hList : (env.fetchMyFolders (args.pfid ≠ "")).result = some fls) :
    foldersCalls (discoverFolders args env).2 =
      if args.pfid ≠ "" ∧ fls = [] then [true, false]
      else [decide (args.pfid ≠ "")] := by
  unfold discoverFolders
  dsimp only
  rw [if_neg (not_not_intro hCode), hList]
  dsimp only
  by_cases hc : args.pfid ≠ "" ∧ fls = []
  · have hc' : (args.pfid ≠ "") ∧ fls.isEmpty = true := by
      refine ⟨hc.1, ?_⟩
      rw [hc.2]
      rfl
    rw [if_pos hc', if_pos hc]
    have hpf : decide (args.pfid ≠ "") = true := decide_eq_true hc.1
    split
    · cases (env.fetchMyFolders false).result <;>
        simp [foldersCalls, hpf]
    · simp [foldersCalls, hpf]
  · have hc' : ¬ ((args.pfid ≠ "") ∧ fls.isEmpty = true) := by
      intro hcc
      apply hc
      refine ⟨hcc.1, ?_⟩
      cases fls with
      | nil => rfl
      | cons x xs => cases hcc.2
    rw [if_neg hc', if_neg hc]
    rfl

/-- C6: past the early exits, when folder discovery's first call succeeds
and returns the list `fls`: if a non-empty scoping parameter was supplied
and `fls` is empty, the run issues exactly two `fetchMyFolders` calls — the
scoped one and a single fallback without the scope; otherwise it issues
exactly one (scoped iff the parameter is non-empty), and no other
`fetchMyFolders` call happens anywhere in the run. -/
theorem spec_C6 (args : Args) (env : Env) (fuel : Nat)
    (fls : List (Option Folder))
    (hTok : ¬ args.sessionToken = "")
    (hTgt : args.targetsForItem = "")
    (hJson : ¬ (args.jsonOutput = true ∧ args.output = ""))
    (hCode : (env.fetchMyFolders (args.pfid ≠ "")).code = 200)
    (hList : (env.fetchMyFolders (args.pfid ≠ "")).result = some fls) :
    foldersCalls (mainRun args env fuel).2.trace =
      if args.pfid ≠ "" ∧ fls = [] then [true, false]
      else [decide (args.pfid ≠ "")] := by
  rw [mainRun_folders args env fuel hTok hTgt hJson]
  exact discoverFolders_calls args env fls hCode hList

/-- Witness for C6: with `pfid = "ROOT"` against an environment whose scoped
discovery returns an empty list, the run's only discovery calls are the
scoped one and one fallback. -/
theorem spec_C6_witness :
    foldersCalls (mainRun { argsFix with pfid := "ROOT" } envFix 10).2.trace =
      if ({ argsFix with pfid := "ROOT" } : Args).pfid ≠ "" ∧ ([] : List (Option Folder)) = [] then [true, false]
      else [decide (({ argsFix with pfid := "ROOT" } : Args).pfid ≠ "")] :=
  spec_C6 { argsFix with pfid := "ROOT" } envFix 10 []
    (by decide) rfl (by decide) (by decide) (by decide)

lemma classifyEmit_fsna (args : Args) (key : ItemKey)
    (res : ExpState × Option Record) (acc : ProcAcc) :
    (classifyEmit args key res acc).1.fs = acc.fs
    ∧ (classifyEmit args key res acc).1.newAny = acc.newAny := by
  obtain ⟨stc, ro⟩ := res
  cases ro with
  | none =>
    unfold classifyEmit
    dsimp only
    rw [afterItem_fst]
    exact ⟨rfl, rfl⟩
  | some r =>
    unfold classifyEmit
    dsimp only
    split
    · exact ⟨rfl, rfl⟩
    · rw [afterItem_fst]
      exact ⟨rfl, rfl⟩

lemma markGlobalSeen_fsna (args : Args) (key : ItemKey) (acc : ProcAcc) :
    (markGlobalSeen args key acc).fs = acc.fs
    ∧ (markGlobalSeen args key acc).newAny = acc.newAny := by
  unfold markGlobalSeen
  dsimp only
  split <;> exact ⟨rfl, rfl⟩

lemma processFreshItem_fsna (args : Args) (env : Env)
    (folderId folderTitle : String) (sortType : Int) (it : RawItem)
    (t : Target) (key : ItemKey) (acc3 : ProcAcc) :
    (processFreshItem args env folderId folderTitle sortType it t key acc3).1.fs = acc3.fs
    ∧ (processFreshItem args env folderId folderTitle sortType it t key acc3).1.newAny = acc3.newAny := by
  unfold processFreshItem
  cases htt : it.targetType with
  | none =>
    dsimp only
    rw [afterItem_fst]
    exact ⟨rfl, rfl⟩
  | some tt =>
    dsimp only
    by_cases h4 : tt = 103 ∨ tt = 120
    · rw [if_pos h4]
      exact classifyEmit_fsna args key _ acc3
    · rw [if_neg h4]
      by_cases h5 : tt = 102
      · rw [if_pos h5]
        exact classifyEmit_fsna args key _ acc3
      · rw [if_neg h5]
        rw [afterItem_fst]
        exact ⟨rfl, rfl⟩

lemma processNewInFolder_fsna (args : Args) (allowed : List Int) (env : Env)
    (folderId folderTitle : String) (sortType : Int) (it : RawItem)
    (t : Target) (key : ItemKey) (acc1 : ProcAcc) :
    (processNewInFolder args allowed env folderId folderTitle sortType it t key acc1).1.fs = acc1.fs
    ∧ (processNewInFolder args allowed env folderId folderTitle sortType it t key acc1).1.newAny = acc1.newAny := by
  unfold processNewInFolder
  by_cases h2 : typeAllowed allowed it.targetType = false
  · rw [if_pos h2]
    exact ⟨rfl, rfl⟩
  · rw [if_neg h2]
    by_cases h3 : acc1.st.seenGlobal.contains key = true
    · rw [if_pos h3]
      exact ⟨rfl, rfl⟩
    · rw [if_neg h3]
      have hf := processFreshItem_fsna args env folderId folderTitle sortType it t key
        (markGlobalSeen args key acc1)
      have hm := markGlobalSeen_fsna args key acc1
      exact ⟨hf.1.trans hm.1, hf.2.trans hm.2⟩

lemma processOneItem_none (args : Args) (allowed : List Int) (env : Env)
    (folderId folderTitle : String) (sortType : Int) (it : RawItem)
    (acc : ProcAcc) (h : it.target = none) :
    processOneItem args allowed env folderId folderTitle sortType it acc = (acc, false) := by
  unfold processOneItem
  rw [h]

lemma processOneItem_fsna_some (args : Args) (allowed : List Int) (env : Env)
    (folderId folderTitle : String) (sortType : Int) (it : RawItem)
    (t : Target) (acc : ProcAcc) (hAll : args.fetchAll = true)
    (h : it.target = some t) :
    (processOneItem args allowed env folderId folderTitle sortType it acc).1.fs
      = (if acc.fs.contains (keyOf it t) = true then acc.fs else keyOf it t :: acc.fs)
    ∧ (processOneItem args allowed env folderId folderTitle sortType it acc).1.newAny
      = (if acc.fs.contains (keyOf it t) = true then acc.newAny else acc.newAny + 1) := by
  unfold processOneItem
  rw [h]
  dsimp only
  unfold processTargetItem
  dsimp only
  by_cases hc : acc.fs.contains (keyOf it t) = true
  · rw [if_pos ⟨hAll, hc⟩, if_pos hc, if_pos hc]
    exact ⟨rfl, rfl⟩
  · rw [if_neg (fun hcc => hc hcc.2), if_neg hc, if_neg hc]
    have hm : markFolderSeen args (keyOf it t) acc
        = { acc with fs := keyOf it t :: acc.fs, newAny := acc.newAny + 1 } := by
      unfold markFolderSeen
      rw [if_pos hAll]
    have hp := processNewInFolder_fsna args allowed env folderId folderTitle sortType it t
      (keyOf it t) (markFolderSeen args (keyOf it t) acc)
    exact ⟨hp.1.trans (by rw [hm]), hp.2.trans (by rw [hm])⟩

lemma countNew_cons_none (fs : List ItemKey) (it : RawItem) (rest : List RawItem)
    (h : it.target = none) : countNew fs (it :: rest) = countNew fs rest := by
  simp only [countNew, h]

lemma countNew_cons_some (fs : List ItemKey) (it : RawItem) (t : Target)
    (rest : List RawItem) (h : it.target = some t) :
    countNew fs (it :: rest) =
      if fs.contains (keyOf it t) = true then countNew fs rest
      else countNew (keyOf it t :: fs) rest + 1 := by
  simp only [countNew, h]

lemma newInFolder_none (fs : List ItemKey) (it : RawItem) (h : it.target = none) :
    newInFolder fs it = false := by
  simp only [newInFolder, h]

lemma newInFolder_some (fs : List ItemKey) (it : RawItem) (t : Target)
    (h : it.target = some t) :
    newInFolder fs it = !(fs.contains (keyOf it t)) := by
  simp only [newInFolder, h]

/-- Completed item loops count exactly the never-seen-in-folder identities
into `new_any_in_page`. -/
lemma processItems_newAny (args : Args) (allowed : List Int) (env : Env)
    (folderId folderTitle : String) (sortType : Int) (items : List RawItem) :
    ∀ acc : ProcAcc, args.fetchAll = true →
    (processItems args allowed env folderId folderTitle sortType items acc).2 = false →
    (processItems args allowed env folderId folderTitle sortType items acc).1.newAny
      = acc.newAny + countNew acc.fs items := by
  induction items with
  | nil =>
    intro acc hAll hdone
    show acc.newAny = acc.newAny + countNew acc.fs []
    rfl
  | cons it rest ih =>
    intro acc hAll hdone
    have hres : processItems args allowed env folderId folderTitle sortType (it :: rest) acc
        = (match processOneItem args allowed env folderId folderTitle sortType it acc with
          | (a, true) => (a, true)
          | (a, false) => processItems args allowed env folderId folderTitle sortType rest a) := rfl
    rcases hpo : processOneItem args allowed env folderId folderTitle sortType it acc with ⟨acc1, brk⟩
    rw [hpo] at hres
    rw [hres] at hdone ⊢
    cases brk with
    | true => simp at hdone
    | false =>
      cases htarget : it.target with
      | none =>
        have hone := processOneItem_none args allowed env folderId folderTitle sortType it acc htarget
        have hae : acc = acc1 := congrArg Prod.fst (hone.symm.trans hpo)
        have hcn : countNew acc.fs (it :: rest) = countNew acc.fs rest :=
          countNew_cons_none acc.fs it rest htarget
        rw [hcn, ← hae]
        exact ih acc hAll (by rw [← hae] at hdone; exact hdone)
      | some t =>
        have hf := processOneItem_fsna_some args allowed env folderId folderTitle sortType it t acc
          hAll htarget
        rw [hpo] at hf
        by_cases hc : acc.fs.contains (keyOf it t) = true
        · simp only [if_pos hc] at hf
          have hcn : countNew acc.fs (it :: rest) = countNew acc.fs rest := by
            rw [countNew_cons_some acc.fs it t rest htarget, if_pos hc]
          rw [hcn]
          have hthis := ih acc1 hAll hdone
          rw [hf.1, hf.2] at hthis
          exact hthis
        · simp only [if_neg hc] at hf
          have hcn : countNew acc.fs (it :: rest) = countNew (keyOf it t :: acc.fs) rest + 1 := by
            rw [countNew_cons_some acc.fs it t rest htarget, if_neg hc]
          rw [hcn]
          have hthis := ih acc1 hAll hdone
          rw [hf.1, hf.2] at hthis
          rw [hthis]
          omega

lemma countNew_zero_iff (items : List RawItem) :
    ∀ fs : List ItemKey, (countNew fs items = 0 ↔ anyNewInFolder fs items = false) := by
  induction items with
  | nil =>
    intro fs
    simp [countNew, anyNewInFolder]
  | cons it rest ih =>
    intro fs
    cases h : it.target with
    | none =>
      have hcn : countNew fs (it :: rest) = countNew fs rest :=
        countNew_cons_none fs it rest h
      have hny : newInFolder fs it = false := newInFolder_none fs it h
      unfold anyNewInFolder
      rw [hcn, List.any_cons, hny]
      simpa [anyNewInFolder] using ih fs
    | some t =>
      by_cases hc : fs.contains (keyOf it t) = true
      · have hcn : countNew fs (it :: rest) = countNew fs rest := by
          rw [countNew_cons_some fs it t rest h, if_pos hc]
        have hny : newInFolder fs it = false := by
          rw [newInFolder_some fs it t h, hc]
          rfl
        unfold anyNewInFolder
        rw [hcn, List.any_cons, hny]
        simpa [anyNewInFolder] using ih fs
      · have hcn : countNew fs (it :: rest) = countNew (keyOf it t :: fs) rest + 1 := by
          rw [countNew_cons_some fs it t rest h, if_neg hc]
        have hny : newInFolder fs it = true := by
          rw [newInFolder_some fs it t h, Bool.of_not_eq_true hc]
          rfl
        unfold anyNewInFolder
        rw [hcn, List.any_cons, hny]
        simp

/-- C2: in `--all` mode, for a fully processed page (the item loop did not
break early), the streak update performed by the page loop increments the
no-new-streak exactly when the page contributed zero identities not already
in the per-folder seen set, and resets it to zero when the page contained
at least one never-seen-in-folder identity — the right-hand side depends
only on dict-shaped targets and the per-folder seen set, not on the
allowed-type filter or the global dedup set. -/
theorem spec_C2 (args : Args) (allowed : List Int) (env : Env)
    (folderId folderTitle : String) (sortType : Int) (items : List RawItem)
    (fs : List ItemKey) (st0 : ExpState) (streak : Nat)
    (hAll : args.fetchAll = true)
    (hdone : (processItems args allowed env folderId folderTitle sortType items
      { fs := fs, st := st0, newAny := 0, newSel := 0 }).2 = false) :
    updateStreak (processItems args allowed env folderId folderTitle sortType items
        { fs := fs, st := st0, newAny := 0, newSel := 0 }).1.newAny streak
      = (if anyNewInFolder fs items = true then 0 else streak + 1) := by
  have hn := processItems_newAny args allowed env folderId folderTitle sortType items
    { fs := fs, st := st0, newAny := 0, newSel := 0 } hAll hdone
  unfold updateStreak
  rw [hn]
  dsimp only
  by_cases hany : anyNewInFolder fs items = true
  · rw [if_pos hany]
    have hne : countNew fs items ≠ 0 := by
      intro h0
      rw [(countNew_zero_iff items fs).mp h0] at hany
      cases hany
    rw [if_neg (by omega)]
  · rw [if_neg hany]
    have h0 : countNew fs items = 0 :=
      (countNew_zero_iff items fs).mpr (Bool.of_not_eq_true hany)
    rw [if_pos (by omega)]

/-- Witness for C2: a page with one fresh identity resets a running streak
of 5 to zero. -/
theorem spec_C2_witness :
    updateStreak (processItems argsFix [120, 103] envFix "f1" "T" 0 [itFixSent, itFixSent2]
        { fs := [], st := {}, newAny := 0, newSel := 0 }).1.newAny 5
      = (if anyNewInFolder [] [itFixSent, itFixSent2] = true then 0 else 5 + 1) :=
  spec_C2 argsFix [120, 103] envFix "f1" "T" 0 [itFixSent, itFixSent2] [] {} 5 rfl (by decide)

/-- C10: an item whose `target` is not a JSON object is skipped before
identity computation — the whole item loop leaves the per-folder seen set,
the run state (global seen set, results, trace) and both page counters
untouched and never breaks — and a non-empty page of such items updates the
no-new-streak exactly like a page with zero new identities. -/
theorem spec_C10 (args : Args) (allowed : List Int) (env : Env)
    (folderId folderTitle : String) (sortType : Int) (items : List RawItem)
    (fs : List ItemKey) (st0 : ExpState) (streak : Nat)
    (h : ∀ it ∈ items, it.target = none) :
    processItems args allowed env folderId folderTitle sortType items
        { fs := fs, st := st0, newAny := 0, newSel := 0 }
      = ({ fs := fs, st := st0, newAny := 0, newSel := 0 }, false)
    ∧ updateStreak 0 streak = streak + 1 := by
  constructor
  · have haux : ∀ (l : List RawItem) (acc : ProcAcc), (∀ it ∈ l, it.target = none) →
        processItems args allowed env folderId folderTitle sortType l acc = (acc, false) := by
      intro l
      induction l with
      | nil => intro acc _; rfl
      | cons it rest ih =>
        intro acc hl
        have hres : processItems args allowed env folderId folderTitle sortType (it :: rest) acc
            = (match processOneItem args allowed env folderId folderTitle sortType it acc with
              | (a, true) => (a, true)
              | (a, false) => processItems args allowed env folderId folderTitle sortType rest a) := rfl
        rw [hres, processOneItem_none args allowed env folderId folderTitle sortType it acc
          (hl it (List.mem_cons_self it rest))]
        exact ih acc (fun x hx => hl x (List.mem_cons_of_mem it hx))
    exact haux items _ h
  · rw [updateStreak]
    rfl

/-- Witness for C10: a page of two non-dict-target items leaves everything
unchanged and the streak update is an increment. -/
theorem spec_C10_witness :
    processItems argsFix [120, 103] envFix "f1" "T" 0 [itFixNoDict, itFixNoDict]
        { fs := [], st := {}, newAny := 0, newSel := 0 }
      = ({ fs := [], st := {}, newAny := 0, newSel := 0 }, false)
    ∧ updateStreak 0 7 = 7 + 1 :=
  spec_C10 argsFix [120, 103] envFix "f1" "T" 0 [itFixNoDict, itFixNoDict] [] {} 7 (by decide)

lemma classifyEmit_seen (args : Args) (key : ItemKey)
    (res : ExpState × Option Record) (acc : ProcAcc)
    (hs : res.1.seenGlobal = acc.st.seenGlobal) :
    (classifyEmit args key res acc).1.st.seenGlobal = acc.st.seenGlobal := by
  obtain ⟨stc, ro⟩ := res
  simp only at hs
  cases ro with
  | none =>
    unfold classifyEmit
    dsimp only
    rw [afterItem_fst]
    exact hs
  | some r =>
    unfold classifyEmit
    dsimp only
    split
    · exact hs
    · rw [afterItem_fst]
      exact hs

lemma processFreshItem_seen (args : Args) (env : Env)
    (folderId folderTitle : String) (sortType : Int) (it : RawItem)
    (t : Target) (key : ItemKey) (acc3 : ProcAcc) :
    (processFreshItem args env folderId folderTitle sortType it t key acc3).1.st.seenGlobal
      = acc3.st.seenGlobal := by
  unfold processFreshItem
  cases it.targetType with
  | none =>
    dsimp only
    rw [afterItem_fst]
  | some tt =>
    dsimp only
    by_cases h4 : tt = 103 ∨ tt = 120
    · rw [if_pos h4]
      exact classifyEmit_seen args key _ acc3
        (classifySent_obs env folderId folderTitle sortType tt (itemIdOf t) t acc3.st).1
    · rw [if_neg h4]
      by_cases h5 : tt = 102
      · rw [if_pos h5]
        exact classifyEmit_seen args key _ acc3
          (classifyWord_obs env folderId folderTitle sortType (itemIdOf t) t acc3.st).1
      · rw [if_neg h5]
        rw [afterItem_fst]

/-- C5 counterexample: the item `itFixDropped` (targetType 103, dict target,
empty title and notation-title) is dropped by the classifier — no record is
printed or stored — yet its Item Identity `(103, "x1")` IS added to the
global seen set, contradicting the claim that a classifier-dropped item
does not get its identity marked globally seen. -/
theorem spec_C5_counterexample :
    (processOneItem argsFix [120, 103] envFix "f1" "T" 0 itFixDropped
        { fs := [], st := {}, newAny := 0, newSel := 0 }).1.st.seenGlobal.contains
        (some 103, "x1") = true
    ∧ emittedKeys (processOneItem argsFix [120, 103] envFix "f1" "T" 0 itFixDropped
        { fs := [], st := {}, newAny := 0, newSel := 0 }).1.st.trace = []
    ∧ (processOneItem argsFix [120, 103] envFix "f1" "T" 0 itFixDropped
        { fs := [], st := {}, newAny := 0, newSel := 0 }).1.st.printed = 0
    ∧ (processOneItem argsFix [120, 103] envFix "f1" "T" 0 itFixDropped
        { fs := [], st := {}, newAny := 0, newSel := 0 }).1.st.results = [] := by
  decide

/-- C5 (amended): a dict-target item that passes the type filter, is not in
the global seen set, and is not in the per-folder seen set has its identity
marked globally seen as soon as those checks pass — before classification —
so even an item the classifier then drops ends up globally seen. -/
theorem spec_C5_amended (args : Args) (allowed : List Int) (env : Env)
    (folderId folderTitle : String) (sortType : Int) (it : RawItem)
    (t : Target) (acc : ProcAcc)
    (ht : it.target = some t)
    (htype : typeAllowed allowed it.targetType = true)
    (hglob : acc.st.seenGlobal.contains (keyOf it t) = false)
    (hfold : acc.fs.contains (keyOf it t) = false) :
    keyOf it t ∈ (processOneItem args allowed env folderId folderTitle sortType it acc).1.st.seenGlobal := by
  unfold processOneItem
  rw [ht]
  dsimp only
  unfold processTargetItem
  dsimp only
  have hcond : ¬ (args.fetchAll = true ∧ acc.fs.contains (keyOf it t) = true) := by
    intro hcc
    rw [hfold] at hcc
    exact Bool.false_ne_true hcc.2
  rw [if_neg hcond]
  unfold processNewInFolder
  rw [if_neg (by simp [htype])]
  rw [if_neg (by rw [markFolderSeen_st, hglob]; exact Bool.false_ne_true)]
  rw [processFreshItem_seen, markGlobalSeen_st]
  exact List.mem_cons_self _ _

/-- Witness for the amended C5, at the counterexample's dropped item. -/
theorem spec_C5_amended_witness :
    keyOf itFixDropped tFixDropped ∈
      (processOneItem argsFix [120, 103] envFix "f1" "T" 0 itFixDropped
        { fs := [], st := {}, newAny := 0, newSel := 0 }).1.st.seenGlobal :=
  spec_C5_amended argsFix [120, 103] envFix "f1" "T" 0 itFixDropped tFixDropped
    { fs := [], st := {}, newAny := 0, newSel := 0 } rfl (by decide) (by decide) (by decide)

/-- C7: a sentence-like item (targetType 103 or 120) yields a record iff its
`jp` (title, falling back to the notation title) is non-empty after strip;
a word item yields a record iff its post-resolution `spell` or `excerpt`
is non-empty — otherwise the item is dropped. -/
theorem spec_C7 (env : Env) (folderId folderTitle : String)
    (sortType tt : Int) (itemId : String) (t : Target) (st : ExpState)
    (htt : tt = 103 ∨ tt = 120) :
    ((classifySent env folderId folderTitle sortType tt itemId t st).2.isSome = true
      ↔ pyStrip (pyOr t.title t.notationTitle) ≠ "")
    ∧ ((classifyWord env folderId folderTitle sortType itemId t st).2.isSome = true
      ↔ ((wordFieldsAfter env t st).spell ≠ "" ∨ (wordFieldsAfter env t st).excerpt ≠ "")) := by
  constructor
  · unfold classifySent
    dsimp only
    by_cases hjp : pyStrip (pyOr t.title t.notationTitle) ≠ ""
    · rw [if_pos hjp]
      simp [hjp]
    · rw [if_neg hjp]
      simp [hjp]
  · unfold classifyWord
    dsimp only
    by_cases hcond : (wordFieldsAfter env t st).spell ≠ "" ∨ (wordFieldsAfter env t st).excerpt ≠ ""
    · rw [if_pos hcond]
      simp [hcond]
    · rw [if_neg hcond]
      simp
      push_neg at hcond
      exact hcond

/-- Witness for C7 at a 103 item with non-empty title and a word target. -/
theorem spec_C7_witness :
    ((classifySent envFix "f1" "T" 0 103 "a1" tFixSent ({} : ExpState)).2.isSome = true
      ↔ pyStrip (pyOr tFixSent.title tFixSent.notationTitle) ≠ "")
    ∧ ((classifyWord envFix "f1" "T" 0 "a1" tFixSent ({} : ExpState)).2.isSome = true
      ↔ ((wordFieldsAfter envFix tFixSent ({} : ExpState)).spell ≠ ""
          ∨ (wordFieldsAfter envFix tFixSent ({} : ExpState)).excerpt ≠ "")) :=
  spec_C7 envFix "f1" "T" 0 103 "a1" tFixSent {} (Or.inl rfl)

lemma pyOr_empty_right (a : String) : pyOr a "" = a := by
  unfold pyOr
  split
  · next h => rw [h]
  · rfl

/-- C8 counterexample: the word target `tFixNoId` has an empty inline
`spell` (so "inline spell or pron is missing" holds), but because its
`objectId`/`id` are empty the code never consults the Word Resolution
Cache: the state is returned unchanged, with no word-detail call issued —
contradicting the claim that the cache is consulted for every word item
with missing spell or pron. -/
theorem spec_C8_counterexample :
    pyStrip (pyOr tFixNoId.spell tFixNoId.title) = ""
    ∧ (wordFieldsAfter envFix tFixNoId ({} : ExpState)).st = ({} : ExpState)
    ∧ wordFetchIds (wordFieldsAfter envFix tFixNoId ({} : ExpState)).st.trace = []
    ∧ (classifyWord envFix "f1" "T" 0 "i" tFixNoId ({} : ExpState)).2 = none := by
  decide

/-- C8 (amended): for a word item with a non-empty word identifier
(`objectId` falling back to `id`) whose inline spell or pron is missing,
the Word Resolution Cache is consulted (the state is exactly the resolved
one), and each of the four fields keeps its non-empty inline value and
takes the resolved value only when the inline one is empty. -/
theorem spec_C8_amended (env : Env) (t : Target) (st : ExpState)
    (hwid : pyOr t.objectId t.id ≠ "")
    (hmiss : pyStrip (pyOr t.spell t.title) = "" ∨ pyStrip t.pron = "") :
    (wordFieldsAfter env t st).st = resolveWord env (pyOr t.objectId t.id) st
    ∧ (wordFieldsAfter env t st).spell
      = pyOr (pyStrip (pyOr t.spell t.title)) (resolvedWordFields env (pyOr t.objectId t.id) st).spell
    ∧ (wordFieldsAfter env t st).pron
      = pyOr (pyStrip t.pron) (resolvedWordFields env (pyOr t.objectId t.id) st).pron
    ∧ (wordFieldsAfter env t st).accent
      = pyOr (pyStrip t.accent) (resolvedWordFields env (pyOr t.objectId t.id) st).accent
    ∧ (wordFieldsAfter env t st).excerpt
      = pyOr (pyStrip t.excerpt) (resolvedWordFields env (pyOr t.objectId t.id) st).excerpt := by
  unfold wordFieldsAfter
  dsimp only
  rw [if_pos ⟨hwid, hmiss⟩]
  unfold resolvedWordFields
  cases hcw : cachedWord (resolveWord env (pyOr t.objectId t.id) st) (pyOr t.objectId t.id) with
  | some w =>
    dsimp only
    exact ⟨rfl, rfl, rfl, rfl, rfl⟩
  | none =>
    dsimp only
    exact ⟨rfl, (pyOr_empty_right _).symm, (pyOr_empty_right _).symm,
      (pyOr_empty_right _).symm, (pyOr_empty_right _).symm⟩

def tFixWordGap : Target := { objectId := "w1", pron := "ぴ" }

/-- Witness for the amended C8: a word target with id `"w1"`, missing inline
spell — resolution is consulted and fills exactly the empty fields. -/
theorem spec_C8_amended_witness :
    (wordFieldsAfter envFix tFixWordGap ({} : ExpState)).st
      = resolveWord envFix (pyOr tFixWordGap.objectId tFixWordGap.id) ({} : ExpState)
    ∧ (wordFieldsAfter envFix tFixWordGap ({} : ExpState)).spell
      = pyOr (pyStrip (pyOr tFixWordGap.spell tFixWordGap.title))
          (resolvedWordFields envFix (pyOr tFixWordGap.objectId tFixWordGap.id) ({} : ExpState)).spell
    ∧ (wordFieldsAfter envFix tFixWordGap ({} : ExpState)).pron
      = pyOr (pyStrip tFixWordGap.pron)
          (resolvedWordFields envFix (pyOr tFixWordGap.objectId tFixWordGap.id) ({} : ExpState)).pron
    ∧ (wordFieldsAfter envFix tFixWordGap ({} : ExpState)).accent
      = pyOr (pyStrip tFixWordGap.accent)
          (resolvedWordFields envFix (pyOr tFixWordGap.objectId tFixWordGap.id) ({} : ExpState)).accent
    ∧ (wordFieldsAfter envFix tFixWordGap ({} : ExpState)).excerpt
      = pyOr (pyStrip tFixWordGap.excerpt)
          (resolvedWordFields envFix (pyOr tFixWordGap.objectId tFixWordGap.id) ({} : ExpState)).excerpt :=
  spec_C8_amended envFix tFixWordGap {} (by decide) (Or.inl (by decide))

/-- The first configuration-parsing failure of a run, in source order. -/
def firstParseError (args : Args) : Option String :=
  match parseTargetTypes args.targetTypes with
  | Except.error m => some m
  | Except.ok _ =>
    match parseSortTypes args.sortTypes with
    | Except.error m => some m
    | Except.ok _ => none

def argsC9 : Args := { sessionToken := "tok", targetTypes := "abc" }

/-- C9 counterexample: with the unparseable `--target-types abc` the run
does fail with a validation error, but only AFTER issuing the
folder-discovery gateway call — its trace already contains a
`fetchMyFolders` call at the moment of rejection, contradicting "no
gateway call is issued before the malformed configuration is rejected". -/
theorem spec_C9_counterexample :
    (mainRun argsC9 envFix 3).1
      = RunOutcome.validationError "Invalid --target-types entry: abc"
    ∧ foldersCalls (mainRun argsC9 envFix 3).2.trace = [false]
    ∧ (mainRun argsC9 envFix 3).2.trace ≠ [] := by
  decide

/-- C9 (amended): a run whose type/sort lists contain an unparseable entry
and which reaches configuration parsing fails with that validation error,
but only after folder discovery: at the moment of rejection the trace is
exactly the discovery trace — the discovery gateway call(s) have already
been issued, and no page-fetch or word-detail call ever happens. -/
theorem spec_C9_amended (args : Args) (env : Env) (fuel : Nat)
    (fls : List (Option Folder)) (tr : List GEvent) (m : String)
    (hTok : ¬ args.sessionToken = "")
    (hTgt : args.targetsForItem = "")
    (hJson : ¬ (args.jsonOutput = true ∧ args.output = ""))
    (hdisc : discoverFolders args env = (DiscResult.ok fls, tr))
    (hsel : (selectExportFolders args fls).isSome = true)
    (hbad : firstParseError args = some m) :
    mainRun args env fuel = (RunOutcome.validationError m, { trace := tr }) := by
  unfold mainRun
  rw [if_neg hTok, if_neg (not_not_intro hTgt), if_neg hJson, hdisc]
  dsimp only
  cases hsel' : selectExportFolders args fls with
  | none =>
    rw [hsel'] at hsel
    simp at hsel
  | some efs =>
    dsimp only
    unfold firstParseError at hbad
    cases hpt : parseTargetTypes args.targetTypes with
    | error m' =>
      rw [hpt] at hbad
      dsimp only at hbad
      have hm : m' = m := Option.some.inj hbad
      rw [hm]
    | ok explicitTypes =>
      dsimp only
      rw [hpt] at hbad
      dsimp only at hbad
      cases hps : parseSortTypes args.sortTypes with
      | error m' =>
        rw [hps] at hbad
        dsimp only at hbad
        have hm : m' = m := Option.some.inj hbad
        rw [hm]
      | ok sortList =>
        rw [hps] at hbad
        dsimp only at hbad
        cases hbad

/-- Witness for the amended C9: the counterexample's run reaches the
rejection with exactly the discovery trace. -/
theorem spec_C9_amended_witness :
    mainRun argsC9 envFix 3
      = (RunOutcome.validationError "Invalid --target-types entry: abc",
        { trace := [GEvent.foldersFetch false] }) :=
  spec_C9_amended argsC9 envFix 3 [some { targetId := "f1", title := "例文" }]
    [GEvent.foldersFetch false] "Invalid --target-types entry: abc"
    (by decide) rfl (by decide) (by decide) (by decide) (by decide)

end MojiExport
